import Mathlib

/-!
Verification of the SyntropyLog adapters serialization core: the payload
recognizers, complexity classifiers, serialization envelopes
(`PostgreSQLSerializer`, `MySQLSerializer`, `MongoDBSerializer`) and the
`DataSanitizer`.  Strings are modelled as `List Char`/`String`, JS numbers as
`Int`/`Nat` (wall-clock durations are an explicit parameter, floating point and
real time being outside the model), and the five default redaction regexes are
implemented directly as deterministic scanners (their character classes are
disjoint from the literals that follow them, so greedy matching needs no
backtracking, matching the JS engine on these patterns).
-/

/-- A quote character, as in the character class `['"]` of the redaction
patterns. -/
def isQuoteCh (c : Char) : Bool := c == '\x27' || c == '"'

/-- JS `\s` restricted to the ASCII whitespace characters. -/
def isWsJS (c : Char) : Bool :=
  c == ' ' || c == '\t' || c == '\n' || c == '\r' || c == '\x0b' || c == '\x0c'

/-- JS `\w`, i.e. `[A-Za-z0-9_]`. -/
def isWordCh (c : Char) : Bool := c.isAlphanum || c == '_'

/-- Case-insensitive keyword test at the head of a string (the `i` flag of the
redaction patterns); `kw` is given in lower case. -/
def matchKwCI : List Char → List Char → Bool
  | [], _ => true
  | _ :: _, [] => false
  | k :: ks, c :: cs => k == c.toLower && matchKwCI ks cs

/-- Length of the maximal prefix whose characters satisfy `p` (a greedy
character-class star). -/
def countWhile (p : Char → Bool) : List Char → Nat
  | [] => 0
  | c :: cs => if p c then countWhile p cs + 1 else 0

/-- Matcher for the pattern `kw\s*=\s*['"][^'"]*['"]` (with the `i` flag) at
the head of `s`; returns the length of the match. -/
def tryKwPat (kw : List Char) (s : List Char) : Option Nat :=
  if matchKwCI kw s then
    let s1 := s.drop kw.length
    let w1 := countWhile isWsJS s1
    match s1.drop w1 with
    | '=' :: s3 =>
      let w2 := countWhile isWsJS s3
      match s3.drop w2 with
      | q :: s5 =>
        if isQuoteCh q then
          let b := countWhile (fun c => !(isQuoteCh c)) s5
          match s5.drop b with
          | q2 :: _ =>
            if isQuoteCh q2 then some (kw.length + w1 + 1 + w2 + 1 + b + 1)
            else none
          | [] => none
        else none
      | [] => none
    | _ => none
  else none

/-- Matcher for the connection-string pattern `\/[^\/@]*@` at the head of `s`;
returns the length of the match. -/
def trySlashPat : List Char → Option Nat
  | '/' :: s1 =>
    let b := countWhile (fun c => !(c == '/' || c == '@')) s1
    match s1.drop b with
    | '@' :: _ => some (b + 2)
    | _ => none
  | _ => none

/-- Worker for `replaceAllPat`; the fuel argument (always instantiated with
the string length, which bounds the number of scan steps because every step
consumes at least one character) keeps the recursion structural. -/
def replaceAllAux (tryAt : List Char → Option Nat) (cb : List Char → List Char) :
    Nat → List Char → List Char
  | 0, s => s
  | _, [] => []
  | fuel + 1, c :: cs =>
    match tryAt (c :: cs) with
    | some (n + 1) =>
      cb (List.take (n + 1) (c :: cs)) ++ replaceAllAux tryAt cb fuel (List.drop n cs)
    | _ => c :: replaceAllAux tryAt cb fuel cs

/-- `String.prototype.replace` with a global regex and a callback: scan left to
right, replace each leftmost match by `cb` applied to the matched text, resume
after the match.  (The patterns used here never match the empty string.) -/
def replaceAllPat (tryAt : List Char → Option Nat) (cb : List Char → List Char)
    (s : List Char) : List Char :=
  replaceAllAux tryAt cb s.length s

/-- `String.prototype.replace` with a non-global regex: replace only the first
match. -/
def replaceFirstPat (tryAt : List Char → Option Nat) (repl : List Char) :
    List Char → List Char
  | [] => []
  | c :: cs =>
    match tryAt (c :: cs) with
    | some (n + 1) => repl ++ List.drop n cs
    | _ => c :: replaceFirstPat tryAt repl cs

/-- Worker for `countPat`, fuelled like `replaceAllAux`. -/
def countPatAux (tryAt : List Char → Option Nat) : Nat → List Char → Nat
  | 0, _ => 0
  | _, [] => 0
  | fuel + 1, c :: cs =>
    match tryAt (c :: cs) with
    | some (n + 1) => countPatAux tryAt fuel (List.drop n cs) + 1
    | _ => countPatAux tryAt fuel cs

/-- Number of non-overlapping matches of a global regex
(`(s.match(pat) || []).length`). -/
def countPat (tryAt : List Char → Option Nat) (s : List Char) : Nat :=
  countPatAux tryAt s.length s

/-- JS `String.prototype.includes`: `pat` occurs as a contiguous substring. -/
def containsLit : List Char → List Char → Bool
  | [], pat => pat.isEmpty
  | c :: tl, pat => pat.isPrefixOf (c :: tl) || containsLit tl pat

/-- Matcher for a literal substring, for counting occurrences of a literal
global regex such as `/join/g`. -/
def tryLitPat (pat : List Char) (s : List Char) : Option Nat :=
  if pat.isPrefixOf s then some pat.length else none

/-- Number of non-overlapping occurrences of a literal pattern. -/
def countLit (s pat : List Char) : Nat := countPat (tryLitPat pat) s

/-- The replacement callback shared by all five default redaction patterns of
`DataSanitizer`. -/
def redactCb (m : List Char) : List Char :=
  if containsLit m "password".data then "password=\x27[REDACTED]\x27".data
  else if containsLit m "user".data then "user=\x27[REDACTED]\x27".data
  else if containsLit m "token".data then "token=\x27[REDACTED]\x27".data
  else if containsLit m "secret".data then "secret=\x27[REDACTED]\x27".data
  else replaceFirstPat trySlashPat "/[REDACTED]@".data m

/-- `config.redactPatterns.forEach(...)` over the five default patterns, in
their declaration order. -/
def applyRedactPatterns (s : List Char) : List Char :=
  let s1 := replaceAllPat (tryKwPat "password".data) redactCb s
  let s2 := replaceAllPat (tryKwPat "user".data) redactCb s1
  let s3 := replaceAllPat (tryKwPat "token".data) redactCb s2
  let s4 := replaceAllPat (tryKwPat "secret".data) redactCb s3
  replaceAllPat trySlashPat redactCb s4

/-- `SanitizationContext` of the sanitizer module; the optional
`redactPatterns` override (a list of arbitrary `RegExp` values) is not
modelled, the default pattern list is used throughout. -/
structure SanitizationContext where
  sensitiveFields : Option (List String) := none
  maxStringLength : Option Nat := none
  enableDeepSanitization : Option Bool := none

/-- `Required<SanitizationContext>` after `mergeConfig`. -/
structure MergedConfig where
  sensitiveFields : List String
  maxStringLength : Nat
  enableDeepSanitization : Bool

/-- The default sensitive-field list of `DataSanitizer`. -/
def defaultSensitiveFields : List String :=
  ["password", "token", "secret", "key", "auth", "credential",
   "api_key", "private_key", "connection_string", "wallet_location",
   "access_token", "refresh_token", "authorization", "bearer"]

/-- `DataSanitizer.mergeConfig`: `||` defaulting for the field list and the
maximum length (`0` is falsy, so a zero maximum falls back to `300`), `??`
defaulting for the deep-sanitization flag. -/
def mergeConfig (c : SanitizationContext) : MergedConfig where
  sensitiveFields :=
    match c.sensitiveFields with
    | some l => l
    | none => defaultSensitiveFields
  maxStringLength :=
    match c.maxStringLength with
    | some 0 => 300
    | some m => m
    | none => 300
  enableDeepSanitization :=
    match c.enableDeepSanitization with
    | some b => b
    | none => true

/-- Re-read a merged configuration as a context (the sanitizer passes the
merged `config` back to `sanitize` when recursing into array elements). -/
def ctxOfMerged (cfg : MergedConfig) : SanitizationContext where
  sensitiveFields := some cfg.sensitiveFields
  maxStringLength := some cfg.maxStringLength
  enableDeepSanitization := some cfg.enableDeepSanitization

/-- `DataSanitizer.sanitizeString`: apply the five redaction patterns, then
replace an over-long result by a `[STRING_LENGTH_N]` placeholder. -/
def DataSanitizer.sanitizeString (s : String) (cfg : MergedConfig) : String :=
  if s.isEmpty then s
  else
    let t := applyRedactPatterns s.data
    if cfg.maxStringLength ≠ 0 ∧ t.length > cfg.maxStringLength then
      "[STRING_LENGTH_" ++ toString t.length ++ "]"
    else String.mk t

/-- Model of the loosely-typed JS values fed to the serializers and the
sanitizer.  Function-valued fields are opaque (`vFun`); numbers are integers
(floating point is outside the model). -/
inductive Value where
  | vNull
  | vUndefined
  | vBool (b : Bool)
  | vNum (n : Int)
  | vStr (s : String)
  | vFun
  | vArr (elems : List Value)
  | vObj (fields : List (String × Value))

/-- JS truthiness, for the `data &&`-style guards of the recognizers. -/
def Value.truthy : Value → Bool
  | .vNull | .vUndefined => false
  | .vBool b => b
  | .vNum n => n ≠ 0
  | .vStr s => !s.isEmpty
  | .vFun | .vArr _ | .vObj _ => true

/-- JS `typeof`, as a tag. -/
inductive JSType where
  | object | string | number | boolean | function | undefined
deriving DecidableEq, Repr

/-- `typeof v` (`typeof null` is `"object"` in JS). -/
def Value.typeOf : Value → JSType
  | .vNull | .vArr _ | .vObj _ => .object
  | .vStr _ => .string
  | .vNum _ => .number
  | .vBool _ => .boolean
  | .vFun => .function
  | .vUndefined => .undefined

/-- Property access `v.k`: assoc-list lookup on objects, `undefined`
otherwise (the recognizer fields are never array indices or string
methods, and access on `null`/`undefined` is always behind a truthiness
guard in the source). -/
def Value.getField : Value → String → Value
  | .vObj fields, k =>
    match fields.find? (fun kv => kv.1 == k) with
    | some kv => kv.2
    | none => .vUndefined
  | _, _ => .vUndefined

/-- `Array.isArray`. -/
def Value.isArray : Value → Bool
  | .vArr _ => true
  | _ => false

/-- Lower-case a string character-wise (`String.prototype.toLowerCase` on
ASCII). -/
def jsToLower (s : String) : String := String.mk (s.data.map Char.toLower)

/-- The sensitive-key test of `DataSanitizer.sanitizeObject`: the lower-cased
key contains some configured field name as a substring. -/
def isSensitiveKey (cfg : MergedConfig) (k : String) : Bool :=
  cfg.sensitiveFields.any (fun f => containsLit (jsToLower k).data f.data)

mutual

/-- `DataSanitizer.sanitize`: merge the context, dispatch on the value's
type (strings are redacted/truncated, objects and arrays are handed to
`sanitizeObject` — its two arms are inlined here so that the mutual
recursion is structural — other scalars pass through). -/
def DataSanitizer.sanitize (v : Value) (c : SanitizationContext) : Value :=
  let cfg := mergeConfig c
  match v with
  | .vStr s => .vStr (DataSanitizer.sanitizeString s cfg)
  | .vObj fs => .vObj (DataSanitizer.sanitizeFields fs cfg)
  | .vArr es => .vArr (DataSanitizer.sanitizeElems es cfg)
  | v => v

/-- `DataSanitizer.sanitizeObject`: arrays map `sanitize` element-wise;
objects rebuild every entry, redacting sensitive keys wholesale.  (The
source only ever calls it on arrays and objects; on any other value
`Object.entries` yields nothing and an empty object results.) -/
def DataSanitizer.sanitizeObject (v : Value) (cfg : MergedConfig) : Value :=
  match v with
  | .vArr es => .vArr (DataSanitizer.sanitizeElems es cfg)
  | .vObj fs => .vObj (DataSanitizer.sanitizeFields fs cfg)
  | _ => .vObj []

/-- The `obj.map(item => this.sanitize(item, config))` arm of
`sanitizeObject`. -/
def DataSanitizer.sanitizeElems (es : List Value) (cfg : MergedConfig) : List Value :=
  match es with
  | [] => []
  | e :: tl =>
    DataSanitizer.sanitize e (ctxOfMerged cfg) :: DataSanitizer.sanitizeElems tl cfg

/-- The `Object.entries` loop of `sanitizeObject`. -/
def DataSanitizer.sanitizeFields (fs : List (String × Value)) (cfg : MergedConfig) :
    List (String × Value) :=
  match fs with
  | [] => []
  | (k, v) :: tl =>
    let v' :=
      if isSensitiveKey cfg k then Value.vStr "[REDACTED]"
      else
        match v with
        | .vObj fs2 =>
          if cfg.enableDeepSanitization then
            DataSanitizer.sanitizeObject (.vObj fs2) cfg
          else .vObj fs2
        | .vArr es2 =>
          if cfg.enableDeepSanitization then
            DataSanitizer.sanitizeObject (.vArr es2) cfg
          else .vArr es2
        | .vStr s => .vStr (DataSanitizer.sanitizeString s cfg)
        | v => v
    (k, v') :: DataSanitizer.sanitizeFields tl cfg

end

/-- The `low`/`medium`/`high` complexity bucket. -/
inductive Complexity where
  | low
  | medium
  | high
deriving DecidableEq, Repr

/-- Bucket rank, for stating monotonicity (`low < medium < high`). -/
def Complexity.rank : Complexity → Nat
  | .low => 0
  | .medium => 1
  | .high => 2

/-- The bucket's string form, as stored in the projected payloads. -/
def Complexity.str : Complexity → String
  | .low => "low"
  | .medium => "medium"
  | .high => "high"

/-- `SerializationContext` of `types.ts`; only `timeout` is consulted by the
serializers (`sanitize`, `sensitiveFields` and `maxDepth` are not read). -/
structure SerializationContext where
  timeout : Option Int := none

/-- `context.timeout || 50`: a missing or zero (falsy) timeout falls back to
the 50 ms default. -/
def timeoutOrDefault (c : SerializationContext) : Int :=
  match c.timeout with
  | some t => if t = 0 then 50 else t
  | none => 50

/-- The metadata attached to every result.  The wall-clock `duration` is the
elapsed-milliseconds measurement, passed to the model as an explicit
parameter; the ISO `timestamp` string is another clock readout and is not
modelled. -/
structure SerializationMetadata where
  serializer : String
  complexity : Complexity
  duration : Nat

/-- `SerializationResult` of `types.ts`. -/
structure SerializationResult where
  success : Bool
  data : Option Value := none
  error : Option String := none
  metadata : SerializationMetadata

/-- The `Serialización lenta: Xms (máximo Yms)` overrun message. -/
def slowMsg (dur : Nat) (timeout : Int) : String :=
  "Serialización lenta: " ++ toString dur ++ "ms (máximo " ++ toString timeout ++ "ms)"

/-- `data.f === undefined || Array.isArray(data.f)`. -/
def undefOrArray : Value → Bool
  | .vUndefined => true
  | v => v.isArray

/-- `Object.keys(v).length`. -/
def jsKeysCount : Value → Nat
  | .vObj fs => fs.length
  | .vArr es => es.length
  | _ => 0

/-- Matcher for `with\s+\w+\s+as` (the CTE-counting regex) at the head of
`s`; the scanned string is already lower-cased.  Greedy matching is
deterministic because `\s` and `\w` are disjoint and neither matches the
letters of the closing literal. -/
def tryCtePat (s : List Char) : Option Nat :=
  if "with".data.isPrefixOf s then
    let s1 := s.drop 4
    let w1 := countWhile isWsJS s1
    if w1 == 0 then none
    else
      let s2 := s1.drop w1
      let ww := countWhile isWordCh s2
      if ww == 0 then none
      else
        let s3 := s2.drop ww
        let w2 := countWhile isWsJS s3
        if w2 == 0 then none
        else if "as".data.isPrefixOf (s3.drop w2) then some (4 + w1 + ww + w2 + 2)
        else none
  else none

/-- Matcher for `over\s*\(` (the window-function-counting regex) at the head
of `s`. -/
def tryOverPat (s : List Char) : Option Nat :=
  if "over".data.isPrefixOf s then
    let s1 := s.drop 4
    let w := countWhile isWsJS s1
    match s1.drop w with
    | '(' :: _ => some (4 + w + 1)
    | _ => none
  else none

/-- Shorthand: `s.includes(pat)` on strings. -/
def strIncludes (s pat : String) : Bool := containsLit s.data pat.data

/-- The `query.values.length`-tier bonus (`>20: +2, >10: +1`), shared by the
SQL families; `none` when `values` is absent. -/
def valuesBonus : Value → Nat
  | .vArr vs => if vs.length > 20 then 2 else if vs.length > 10 then 1 else 0
  | _ => 0

/-- The SQL-text length-tier bonus (`>1000: +3, >500: +2, >200: +1`). -/
def lengthBonus (sql : String) : Nat :=
  if sql.length > 1000 then 3 else if sql.length > 500 then 2
  else if sql.length > 200 then 1 else 0

/-- The operation-kind score shared by the SQL families: a join-free `select`
scores 1, otherwise the `insert`/`update`/`delete`/DDL chain applies. -/
def sqlOperationScore (sql : String) : Nat :=
  if strIncludes sql "select" && !strIncludes sql "join" then 1
  else if strIncludes sql "insert" then 2
  else if strIncludes sql "update" then 3
  else if strIncludes sql "delete" then 3
  else if strIncludes sql "create" || strIncludes sql "alter" || strIncludes sql "drop" then 4
  else 0

/-- The join score: `joinCount * 2` when `join` occurs. -/
def sqlJoinScore (sql : String) : Nat :=
  if strIncludes sql "join" then 2 * countLit sql.data "join".data else 0

/-- The subquery score: `subqueryCount * 3` when `(select` or `( select`
occurs (only `(select` occurrences are counted). -/
def sqlSubqueryScore (sql : String) : Nat :=
  if strIncludes sql "(select" || strIncludes sql "( select" then
    3 * countLit sql.data "(select".data
  else 0

/-- Thresholding of the accumulated score: `≥ 8` high, `≥ 4` medium. -/
def sqlBucket (score : Nat) : Complexity :=
  if score ≥ 8 then .high else if score ≥ 4 then .medium else .low

/-- The string field `k` of a recognized payload (the recognizers guarantee
the field holds a string wherever this is used). -/
def strFieldOf (d : Value) (k : String) : String :=
  match d.getField k with
  | .vStr s => s
  | _ => ""

/-- `MySQLSerializer.assessQueryComplexity`, as a function of the query's
`sql` text and `values`. -/
def MySQLSerializer.assessQueryComplexity (d : Value) : Complexity :=
  let sql := jsToLower (strFieldOf d "sql")
  let c :=
    sqlOperationScore sql
    + sqlJoinScore sql
    + sqlSubqueryScore sql
    + (if strIncludes sql "group_concat" || strIncludes sql "json_" then 2 else 0)
    + (if strIncludes sql "window" || strIncludes sql "over(" then 3 else 0)
    + lengthBonus sql
    + valuesBonus (d.getField "values")
  sqlBucket c

/-- `PostgreSQLSerializer.assessQueryComplexity`, as a function of the
query's `text` and `values`. -/
def PostgreSQLSerializer.assessQueryComplexity (d : Value) : Complexity :=
  let sql := jsToLower (strFieldOf d "text")
  let c :=
    sqlOperationScore sql
    + (if strIncludes sql "with" then 3 * countPat tryCtePat sql.data else 0)
    + (if strIncludes sql "over(" then 2 * countPat tryOverPat sql.data else 0)
    + sqlJoinScore sql
    + sqlSubqueryScore sql
    + (if strIncludes sql "json_" || strIncludes sql "array_" then 2 else 0)
    + (if strIncludes sql "regexp_" || strIncludes sql "similar to" then 2 else 0)
    + (if strIncludes sql "full text" || strIncludes sql "ts_" then 3 else 0)
    + lengthBonus sql
    + valuesBonus (d.getField "values")
  sqlBucket c

/-- `isPostgreSQLQuery`: an object with a string `text` and `values` either
absent or an array. -/
def PostgreSQLSerializer.isPostgreSQLQuery (d : Value) : Bool :=
  d.truthy && d.typeOf == .object && (d.getField "text").typeOf == .string
    && undefOrArray (d.getField "values")

/-- `isPostgreSQLError`: an object with string `code` and `message`. -/
def PostgreSQLSerializer.isPostgreSQLError (d : Value) : Bool :=
  d.truthy && d.typeOf == .object && (d.getField "code").typeOf == .string
    && (d.getField "message").typeOf == .string

/-- `isPostgreSQLClient`: an object with `query`, `connect` and `end`
methods. -/
def PostgreSQLSerializer.isPostgreSQLClient (d : Value) : Bool :=
  d.truthy && d.typeOf == .object && (d.getField "query").typeOf == .function
    && (d.getField "connect").typeOf == .function
    && (d.getField "end").typeOf == .function

/-- `isPostgreSQLPool`: an object with `connect`, `query` and `end` methods
(the same structural test as `isPostgreSQLClient`, in a different order). -/
def PostgreSQLSerializer.isPostgreSQLPool (d : Value) : Bool :=
  d.truthy && d.typeOf == .object && (d.getField "connect").typeOf == .function
    && (d.getField "query").typeOf == .function
    && (d.getField "end").typeOf == .function

/-- `PostgreSQLSerializer.canSerialize`. -/
def PostgreSQLSerializer.canSerialize (d : Value) : Bool :=
  PostgreSQLSerializer.isPostgreSQLQuery d || PostgreSQLSerializer.isPostgreSQLError d
    || PostgreSQLSerializer.isPostgreSQLClient d || PostgreSQLSerializer.isPostgreSQLPool d

/-- `PostgreSQLSerializer.getComplexity`: queries are scored, errors and
clients are `low`, pools are `medium`, anything else `low`. -/
def PostgreSQLSerializer.getComplexity (d : Value) : Complexity :=
  if PostgreSQLSerializer.isPostgreSQLQuery d then PostgreSQLSerializer.assessQueryComplexity d
  else if PostgreSQLSerializer.isPostgreSQLError d then .low
  else if PostgreSQLSerializer.isPostgreSQLClient d then .low
  else if PostgreSQLSerializer.isPostgreSQLPool d then .medium
  else .low

/-- The `query.config ? {...} : undefined` sub-projection shared by the SQL
projectors: copy the five connection fields verbatim. -/
def projectConfig (cfg : Value) : Value :=
  if cfg.truthy then
    .vObj [("host", cfg.getField "host"), ("port", cfg.getField "port"),
           ("database", cfg.getField "database"), ("user", cfg.getField "user"),
           ("password", cfg.getField "password")]
  else .vUndefined

/-- `PostgreSQLSerializer.serializeQuery`: verbatim field projection (no
redaction at this layer), plus the computed complexity string. -/
def PostgreSQLSerializer.serializeQuery (q : Value) : Value :=
  .vObj [("type", .vStr "PostgreSQLQuery"),
         ("text", q.getField "text"),
         ("values", q.getField "values"),
         ("name", q.getField "name"),
         ("rowMode", q.getField "rowMode"),
         ("types", q.getField "types"),
         ("config", projectConfig (q.getField "config")),
         ("complexity", .vStr (PostgreSQLSerializer.assessQueryComplexity q).str)]

/-- `PostgreSQLSerializer.serializeError`: verbatim projection of the error
fields. -/
def PostgreSQLSerializer.serializeError (e : Value) : Value :=
  .vObj ([("type", .vStr "PostgreSQLError")] ++
    ["code", "message", "detail", "hint", "position", "internalPosition",
     "internalQuery", "where", "schema", "table", "column", "dataType",
     "constraint", "file", "line", "routine"].map (fun k => (k, e.getField k)))

/-- `PostgreSQLSerializer.serializeClient`. -/
def PostgreSQLSerializer.serializeClient (c : Value) : Value :=
  .vObj [("type", .vStr "PostgreSQLClient"),
         ("processID", c.getField "processID"),
         ("secretKey", c.getField "secretKey"),
         ("config", projectConfig (c.getField "connectionParameters")),
         ("hasQuery", .vBool ((c.getField "query").typeOf == .function)),
         ("hasConnect", .vBool ((c.getField "connect").typeOf == .function)),
         ("hasEnd", .vBool ((c.getField "end").typeOf == .function))]

/-- `PostgreSQLSerializer.serializePool` (its `config` block also copies the
pool sizing fields). -/
def PostgreSQLSerializer.serializePool (p : Value) : Value :=
  .vObj [("type", .vStr "PostgreSQLPool"),
         ("totalCount", p.getField "totalCount"),
         ("idleCount", p.getField "idleCount"),
         ("waitingCount", p.getField "waitingCount"),
         ("config",
           (if (p.getField "options").truthy then
             .vObj [("host", (p.getField "options").getField "host"),
                    ("port", (p.getField "options").getField "port"),
                    ("database", (p.getField "options").getField "database"),
                    ("user", (p.getField "options").getField "user"),
                    ("password", (p.getField "options").getField "password"),
                    ("max", (p.getField "options").getField "max"),
                    ("idleTimeoutMillis", (p.getField "options").getField "idleTimeoutMillis"),
                    ("connectionTimeoutMillis", (p.getField "options").getField "connectionTimeoutMillis")]
           else Value.vUndefined)),
         ("hasConnect", .vBool ((p.getField "connect").typeOf == .function)),
         ("hasQuery", .vBool ((p.getField "query").typeOf == .function)),
         ("hasEnd", .vBool ((p.getField "end").typeOf == .function))]

/-- `PostgreSQLSerializer.serialize`: recognize, project, then check the
elapsed time against `context.timeout || 50`; every failure (unrecognized
input or overrun) is caught and converted into a `success:false` envelope —
nothing is thrown past this boundary.  `dur` is the elapsed-milliseconds
measurement (`Date.now() - startTime`). -/
def PostgreSQLSerializer.serialize (d : Value) (ctx : SerializationContext)
    (dur : Nat) : SerializationResult :=
  let projected : Option Value :=
    if PostgreSQLSerializer.isPostgreSQLQuery d then some (PostgreSQLSerializer.serializeQuery d)
    else if PostgreSQLSerializer.isPostgreSQLError d then some (PostgreSQLSerializer.serializeError d)
    else if PostgreSQLSerializer.isPostgreSQLClient d then some (PostgreSQLSerializer.serializeClient d)
    else if PostgreSQLSerializer.isPostgreSQLPool d then some (PostgreSQLSerializer.serializePool d)
    else none
  match projected with
  | some result =>
    let timeout := timeoutOrDefault ctx
    if (dur : Int) > timeout then
      { success := false, error := some (slowMsg dur timeout),
        metadata := { serializer := "postgresql",
                      complexity := PostgreSQLSerializer.getComplexity d, duration := dur } }
    else
      { success := true, data := some result,
        metadata := { serializer := "postgresql",
                      complexity := PostgreSQLSerializer.getComplexity d, duration := dur } }
  | none =>
    { success := false, error := some "Tipo de dato PostgreSQL no reconocido",
      metadata := { serializer := "postgresql",
                    complexity := PostgreSQLSerializer.getComplexity d, duration := dur } }

/-- `isMySQLQuery`: an object with a string `sql` and `values` either absent
or an array. -/
def MySQLSerializer.isMySQLQuery (d : Value) : Bool :=
  d.truthy && d.typeOf == .object && (d.getField "sql").typeOf == .string
    && undefOrArray (d.getField "values")

/-- `isMySQLError`: an object with string `code`, numeric `errno` and string
`sqlMessage`. -/
def MySQLSerializer.isMySQLError (d : Value) : Bool :=
  d.truthy && d.typeOf == .object && (d.getField "code").typeOf == .string
    && (d.getField "errno").typeOf == .number
    && (d.getField "sqlMessage").typeOf == .string

/-- `isMySQLConnection`: an object with `query`, `connect` and `end`
methods. -/
def MySQLSerializer.isMySQLConnection (d : Value) : Bool :=
  d.truthy && d.typeOf == .object && (d.getField "query").typeOf == .function
    && (d.getField "connect").typeOf == .function
    && (d.getField "end").typeOf == .function

/-- `isMySQLPool`: an object with `getConnection`, `query` and `end`
methods. -/
def MySQLSerializer.isMySQLPool (d : Value) : Bool :=
  d.truthy && d.typeOf == .object && (d.getField "getConnection").typeOf == .function
    && (d.getField "query").typeOf == .function
    && (d.getField "end").typeOf == .function

/-- `MySQLSerializer.canSerialize`. -/
def MySQLSerializer.canSerialize (d : Value) : Bool :=
  MySQLSerializer.isMySQLQuery d || MySQLSerializer.isMySQLError d
    || MySQLSerializer.isMySQLConnection d || MySQLSerializer.isMySQLPool d

/-- `MySQLSerializer.getComplexity`. -/
def MySQLSerializer.getComplexity (d : Value) : Complexity :=
  if MySQLSerializer.isMySQLQuery d then MySQLSerializer.assessQueryComplexity d
  else if MySQLSerializer.isMySQLError d then .low
  else if MySQLSerializer.isMySQLConnection d then .low
  else if MySQLSerializer.isMySQLPool d then .medium
  else .low

/-- `MySQLSerializer.serializeQuery`. -/
def MySQLSerializer.serializeQuery (q : Value) : Value :=
  .vObj [("type", .vStr "MySQLQuery"),
         ("sql", q.getField "sql"),
         ("values", q.getField "values"),
         ("timeout", q.getField "timeout"),
         ("connectionConfig", projectConfig (q.getField "connectionConfig")),
         ("complexity", .vStr (MySQLSerializer.assessQueryComplexity q).str)]

/-- `MySQLSerializer.serializeError`. -/
def MySQLSerializer.serializeError (e : Value) : Value :=
  .vObj ([("type", .vStr "MySQLError")] ++
    ["code", "errno", "sqlMessage", "sqlState", "index", "sql", "fatal"].map
      (fun k => (k, e.getField k)))

/-- `MySQLSerializer.serializeConnection`. -/
def MySQLSerializer.serializeConnection (c : Value) : Value :=
  .vObj [("type", .vStr "MySQLConnection"),
         ("threadId", c.getField "threadId"),
         ("state", c.getField "state"),
         ("config", projectConfig (c.getField "config")),
         ("hasQuery", .vBool ((c.getField "query").typeOf == .function)),
         ("hasConnect", .vBool ((c.getField "connect").typeOf == .function)),
         ("hasEnd", .vBool ((c.getField "end").typeOf == .function))]

/-- `MySQLSerializer.serializePool`. -/
def MySQLSerializer.serializePool (p : Value) : Value :=
  .vObj [("type", .vStr "MySQLPool"),
         ("config",
           (if (p.getField "config").truthy then
             .vObj [("host", (p.getField "config").getField "host"),
                    ("port", (p.getField "config").getField "port"),
                    ("database", (p.getField "config").getField "database"),
                    ("user", (p.getField "config").getField "user"),
                    ("password", (p.getField "config").getField "password"),
                    ("connectionLimit", (p.getField "config").getField "connectionLimit"),
                    ("acquireTimeout", (p.getField "config").getField "acquireTimeout"),
                    ("timeout", (p.getField "config").getField "timeout")]
           else Value.vUndefined)),
         ("hasGetConnection", .vBool ((p.getField "getConnection").typeOf == .function)),
         ("hasQuery", .vBool ((p.getField "query").typeOf == .function)),
         ("hasEnd", .vBool ((p.getField "end").typeOf == .function))]

/-- `MySQLSerializer.serialize`, with the same envelope discipline as the
PostgreSQL family. -/
def MySQLSerializer.serialize (d : Value) (ctx : SerializationContext)
    (dur : Nat) : SerializationResult :=
  let projected : Option Value :=
    if MySQLSerializer.isMySQLQuery d then some (MySQLSerializer.serializeQuery d)
    else if MySQLSerializer.isMySQLError d then some (MySQLSerializer.serializeError d)
    else if MySQLSerializer.isMySQLConnection d then some (MySQLSerializer.serializeConnection d)
    else if MySQLSerializer.isMySQLPool d then some (MySQLSerializer.serializePool d)
    else none
  match projected with
  | some result =>
    let timeout := timeoutOrDefault ctx
    if (dur : Int) > timeout then
      { success := false, error := some (slowMsg dur timeout),
        metadata := { serializer := "mysql",
                      complexity := MySQLSerializer.getComplexity d, duration := dur } }
    else
      { success := true, data := some result,
        metadata := { serializer := "mysql",
                      complexity := MySQLSerializer.getComplexity d, duration := dur } }
  | none =>
    { success := false, error := some "Tipo de dato MySQL no reconocido",
      metadata := { serializer := "mysql",
                    complexity := MySQLSerializer.getComplexity d, duration := dur } }

/-- `v !== undefined`. -/
def isDefined : Value → Bool
  | .vUndefined => false
  | _ => true

/-- `isMongoDBQuery`: any truthy value with one of the query-ish fields
present (no object-type check in the source). -/
def MongoDBSerializer.isMongoDBQuery (d : Value) : Bool :=
  d.truthy && (isDefined (d.getField "collection") || isDefined (d.getField "operation")
    || isDefined (d.getField "filter") || isDefined (d.getField "projection")
    || isDefined (d.getField "update"))

/-- `isMongoDBAggregation`: a truthy value with `pipeline` or `stages`
present. -/
def MongoDBSerializer.isMongoDBAggregation (d : Value) : Bool :=
  d.truthy && (isDefined (d.getField "pipeline") || isDefined (d.getField "stages"))

/-- `isMongoDBError`: a truthy value with an error-ish field or a non-empty
string `message`. -/
def MongoDBSerializer.isMongoDBError (d : Value) : Bool :=
  d.truthy && (isDefined (d.getField "code") || isDefined (d.getField "codeName")
    || isDefined (d.getField "writeErrors") || isDefined (d.getField "writeConcernErrors")
    || ((d.getField "message").truthy && (d.getField "message").typeOf == .string))

/-- `MongoDBSerializer.canSerialize`. -/
def MongoDBSerializer.canSerialize (d : Value) : Bool :=
  MongoDBSerializer.isMongoDBQuery d || MongoDBSerializer.isMongoDBAggregation d
    || MongoDBSerializer.isMongoDBError d

/-- The operation-kind score of `MongoDBSerializer.assessQueryComplexity`. -/
def mongoOperationScore : Value → Nat
  | .vStr op =>
    if op == "find" then 1 else if op == "findOne" then 1
    else if op == "insertOne" then 2 else if op == "insertMany" then 3
    else if op == "updateOne" then 2 else if op == "updateMany" then 3
    else if op == "deleteOne" then 2 else if op == "deleteMany" then 3
    else if op == "replaceOne" then 2 else if op == "bulkWrite" then 4
    else 0
  | _ => 0

/-- `MongoDBSerializer.assessQueryComplexity`: operation kind plus capped
argument-shape bonuses, thresholds `≥ 6` high / `≥ 3` medium. -/
def MongoDBSerializer.assessQueryComplexity (d : Value) : Complexity :=
  let c :=
    mongoOperationScore (d.getField "operation")
    + (if (d.getField "filter").truthy && (d.getField "filter").typeOf == .object then
        min (jsKeysCount (d.getField "filter")) 3 else 0)
    + (if (d.getField "projection").truthy then 1 else 0)
    + (if (d.getField "sort").truthy then 1 else 0)
    + (if (d.getField "limit").truthy then 1 else 0)
    + (if (d.getField "skip").truthy then 1 else 0)
    + (if (d.getField "update").truthy && (d.getField "update").typeOf == .object then
        min (jsKeysCount (d.getField "update")) 2 else 0)
  if c ≥ 6 then .high else if c ≥ 3 then .medium else .low

/-- `MongoDBSerializer.assessAggregationComplexity`: the summed
pipeline/stage count, thresholds `≥ 8` high / `≥ 4` medium. -/
def MongoDBSerializer.assessAggregationComplexity (d : Value) : Complexity :=
  let c :=
    (match d.getField "pipeline" with | .vArr l => l.length | _ => 0)
    + (match d.getField "stages" with | .vArr l => l.length | _ => 0)
  if c ≥ 8 then .high else if c ≥ 4 then .medium else .low

/-- `MongoDBSerializer.getComplexity`: queries take precedence over
aggregations, errors are `low`. -/
def MongoDBSerializer.getComplexity (d : Value) : Complexity :=
  if MongoDBSerializer.isMongoDBQuery d then MongoDBSerializer.assessQueryComplexity d
  else if MongoDBSerializer.isMongoDBAggregation d then MongoDBSerializer.assessAggregationComplexity d
  else if MongoDBSerializer.isMongoDBError d then .low
  else .low

/-- `MongoDBSerializer.getTimeout`: a fixed 10 ms unwrap-only ceiling for
every payload. -/
def MongoDBSerializer.getTimeout : Int := 10

/-- `MongoDBSerializer.serializeQuery`. -/
def MongoDBSerializer.serializeQuery (q : Value) : Value :=
  .vObj ([("type", .vStr "MongoDBQuery")] ++
    ["collection", "operation", "filter", "projection", "sort", "update",
     "limit", "skip", "duration", "documentsAffected", "documentsReturned"].map
      (fun k => (k, q.getField k))
    ++ [("complexity", .vStr (MongoDBSerializer.assessQueryComplexity q).str)])

/-- `MongoDBSerializer.serializeAggregation`. -/
def MongoDBSerializer.serializeAggregation (a : Value) : Value :=
  .vObj ([("type", .vStr "MongoDBAggregation")] ++
    ["collection", "pipeline", "stages", "duration", "documentsReturned"].map
      (fun k => (k, a.getField k))
    ++ [("complexity", .vStr (MongoDBSerializer.assessAggregationComplexity a).str)])

/-- `MongoDBSerializer.serializeError`. -/
def MongoDBSerializer.serializeError (e : Value) : Value :=
  .vObj ([("type", .vStr "MongoDBError")] ++
    ["code", "codeName", "message", "operation", "collection", "filter",
     "pipeline", "writeErrors", "writeConcernErrors"].map
      (fun k => (k, e.getField k)))

/-- `MongoDBSerializer.serialize`: same envelope discipline as the SQL
families, but against the fixed 10 ms unwrap ceiling — `context.timeout` is
ignored entirely. -/
def MongoDBSerializer.serialize (d : Value) (_ctx : SerializationContext)
    (dur : Nat) : SerializationResult :=
  let projected : Option Value :=
    if MongoDBSerializer.isMongoDBQuery d then some (MongoDBSerializer.serializeQuery d)
    else if MongoDBSerializer.isMongoDBAggregation d then some (MongoDBSerializer.serializeAggregation d)
    else if MongoDBSerializer.isMongoDBError d then some (MongoDBSerializer.serializeError d)
    else none
  match projected with
  | some result =>
    if (dur : Int) > 10 then
      { success := false,
        error := some ("Serialización lenta: " ++ toString dur
          ++ "ms (máximo 10ms para desenmarañar)"),
        metadata := { serializer := "mongodb",
                      complexity := MongoDBSerializer.getComplexity d, duration := dur } }
    else
      { success := true, data := some result,
        metadata := { serializer := "mongodb",
                      complexity := MongoDBSerializer.getComplexity d, duration := dur } }
  | none =>
    { success := false, error := some "Tipo de dato MongoDB no reconocido",
      metadata := { serializer := "mongodb",
                    complexity := MongoDBSerializer.getComplexity d, duration := dur } }

/-! ### Envelope lemmas shared by the serializer claims -/

theorem pg_metadata_duration (d : Value) (ctx : SerializationContext) (dur : Nat) :
    (PostgreSQLSerializer.serialize d ctx dur).metadata.duration = dur := by
  unfold PostgreSQLSerializer.serialize
  dsimp only
  split
  · split <;> rfl
  · rfl

theorem mysql_metadata_duration (d : Value) (ctx : SerializationContext) (dur : Nat) :
    (MySQLSerializer.serialize d ctx dur).metadata.duration = dur := by
  unfold MySQLSerializer.serialize
  dsimp only
  split
  · split <;> rfl
  · rfl

theorem mongo_metadata_duration (d : Value) (ctx : SerializationContext) (dur : Nat) :
    (MongoDBSerializer.serialize d ctx dur).metadata.duration = dur := by
  unfold MongoDBSerializer.serialize
  dsimp only
  split
  · split <;> rfl
  · rfl

theorem pg_success_iff (d : Value) (ctx : SerializationContext) (dur : Nat) :
    (PostgreSQLSerializer.serialize d ctx dur).success = true ↔
      PostgreSQLSerializer.canSerialize d = true ∧ (dur : Int) ≤ timeoutOrDefault ctx := by
  unfold PostgreSQLSerializer.serialize PostgreSQLSerializer.canSerialize
  dsimp only
  cases hq : PostgreSQLSerializer.isPostgreSQLQuery d <;>
    cases he : PostgreSQLSerializer.isPostgreSQLError d <;>
      cases hc : PostgreSQLSerializer.isPostgreSQLClient d <;>
        cases hp : PostgreSQLSerializer.isPostgreSQLPool d <;>
          simp [hq, he, hc, hp] <;> (try split) <;> simp_all

theorem mysql_success_iff (d : Value) (ctx : SerializationContext) (dur : Nat) :
    (MySQLSerializer.serialize d ctx dur).success = true ↔
      MySQLSerializer.canSerialize d = true ∧ (dur : Int) ≤ timeoutOrDefault ctx := by
  unfold MySQLSerializer.serialize MySQLSerializer.canSerialize
  dsimp only
  cases hq : MySQLSerializer.isMySQLQuery d <;>
    cases he : MySQLSerializer.isMySQLError d <;>
      cases hc : MySQLSerializer.isMySQLConnection d <;>
        cases hp : MySQLSerializer.isMySQLPool d <;>
          simp [hq, he, hc, hp] <;> (try split) <;> simp_all

theorem mongo_success_iff (d : Value) (ctx : SerializationContext) (dur : Nat) :
    (MongoDBSerializer.serialize d ctx dur).success = true ↔
      MongoDBSerializer.canSerialize d = true ∧ (dur : Int) ≤ 10 := by
  unfold MongoDBSerializer.serialize MongoDBSerializer.canSerialize
  dsimp only
  cases hq : MongoDBSerializer.isMongoDBQuery d <;>
    cases ha : MongoDBSerializer.isMongoDBAggregation d <;>
      cases he : MongoDBSerializer.isMongoDBError d <;>
        simp [hq, ha, he] <;> (try split) <;> simp_all

theorem pg_query_first_match (d : Value) (ctx : SerializationContext) (dur : Nat)
    (hq : PostgreSQLSerializer.isPostgreSQLQuery d = true)
    (hd : (dur : Int) ≤ timeoutOrDefault ctx) :
    (PostgreSQLSerializer.serialize d ctx dur).data
      = some (PostgreSQLSerializer.serializeQuery d) := by
  unfold PostgreSQLSerializer.serialize
  dsimp only
  rw [if_pos hq]
  dsimp only
  rw [if_neg (by omega)]

/-! ### Concrete payloads used by witnesses and counterexamples -/

/-- The spec's PostgreSQL scenario input
`{ text: "SELECT * FROM users WHERE id = $1", values: [1] }`. -/
def pgQueryW : Value :=
  .vObj [("text", .vStr "SELECT * FROM users WHERE id = $1"), ("values", .vArr [.vNum 1])]

/-- A minimal recognized MySQL query payload. -/
def mysqlQueryW : Value := .vObj [("sql", .vStr "SELECT 1")]

/-- The spec's unrecognized payload `{ random: "data" }`. -/
def unrecW : Value := .vObj [("random", .vStr "data")]

/-- A MongoDB aggregation payload whose `pipeline` has 9 stages. -/
def mongoAggW : Value :=
  .vObj [("pipeline", .vArr [.vNum 1, .vNum 2, .vNum 3, .vNum 4, .vNum 5,
                             .vNum 6, .vNum 7, .vNum 8, .vNum 9])]

/-! ### Claim theorems -/

/-- C1: for every payload matched by none of a family's variant predicates,
`serialize` returns (rather than throws) a `success:false` envelope whose
error string is the fixed "type not recognized" message containing the
family's display name, and `metadata.complexity` is `low`. -/
theorem C1_unrecognized_payload :
    ∀ (d : Value) (ctx : SerializationContext) (dur : Nat),
      (PostgreSQLSerializer.canSerialize d = false →
        (PostgreSQLSerializer.serialize d ctx dur).success = false ∧
        (PostgreSQLSerializer.serialize d ctx dur).error
          = some "Tipo de dato PostgreSQL no reconocido" ∧
        containsLit "Tipo de dato PostgreSQL no reconocido".data "PostgreSQL".data = true ∧
        (PostgreSQLSerializer.serialize d ctx dur).metadata.complexity = .low) ∧
      (MySQLSerializer.canSerialize d = false →
        (MySQLSerializer.serialize d ctx dur).success = false ∧
        (MySQLSerializer.serialize d ctx dur).error = some "Tipo de dato MySQL no reconocido" ∧
        containsLit "Tipo de dato MySQL no reconocido".data "MySQL".data = true ∧
        (MySQLSerializer.serialize d ctx dur).metadata.complexity = .low) := by
  intro d ctx dur
  constructor
  · intro h
    simp only [PostgreSQLSerializer.canSerialize, Bool.or_eq_false_iff] at h
    obtain ⟨⟨⟨hq, he⟩, hc⟩, hp⟩ := h
    refine ⟨?_, ?_, by decide, ?_⟩ <;>
      simp [PostgreSQLSerializer.serialize, PostgreSQLSerializer.getComplexity, hq, he, hc, hp]
  · intro h
    simp only [MySQLSerializer.canSerialize, Bool.or_eq_false_iff] at h
    obtain ⟨⟨⟨hq, he⟩, hc⟩, hp⟩ := h
    refine ⟨?_, ?_, by decide, ?_⟩ <;>
      simp [MySQLSerializer.serialize, MySQLSerializer.getComplexity, hq, he, hc, hp]

/-- Witness for C1 at the concrete unrecognized payload `{ random: "data" }`. -/
theorem C1_witness :
    (PostgreSQLSerializer.serialize unrecW {} 0).success = false ∧
    (PostgreSQLSerializer.serialize unrecW {} 0).metadata.complexity = Complexity.low ∧
    (MySQLSerializer.serialize unrecW {} 0).success = false ∧
    (MySQLSerializer.serialize unrecW {} 0).metadata.complexity = Complexity.low := by
  have h := C1_unrecognized_payload unrecW {} 0
  exact ⟨(h.1 (by rfl)).1, (h.1 (by rfl)).2.2.2, (h.2 (by rfl)).1, (h.2 (by rfl)).2.2.2⟩

/-- C2: `metadata.duration` is the non-negative elapsed measurement itself,
and a `success:true` result implies the measurement was within the effective
timeout — `context.timeout || 50` for the context-driven SQL families, the
fixed 10 ms unwrap ceiling for MongoDB. -/
theorem C2_duration_bounds :
    ∀ (d : Value) (ctx : SerializationContext) (dur : Nat),
      ((0 : Int) ≤ ((PostgreSQLSerializer.serialize d ctx dur).metadata.duration : Int) ∧
        (PostgreSQLSerializer.serialize d ctx dur).metadata.duration = dur ∧
        ((PostgreSQLSerializer.serialize d ctx dur).success = true →
          (dur : Int) ≤ timeoutOrDefault ctx)) ∧
      ((0 : Int) ≤ ((MySQLSerializer.serialize d ctx dur).metadata.duration : Int) ∧
        (MySQLSerializer.serialize d ctx dur).metadata.duration = dur ∧
        ((MySQLSerializer.serialize d ctx dur).success = true →
          (dur : Int) ≤ timeoutOrDefault ctx)) ∧
      ((0 : Int) ≤ ((MongoDBSerializer.serialize d ctx dur).metadata.duration : Int) ∧
        (MongoDBSerializer.serialize d ctx dur).metadata.duration = dur ∧
        ((MongoDBSerializer.serialize d ctx dur).success = true → (dur : Int) ≤ 10)) := by
  intro d ctx dur
  refine ⟨⟨Int.natCast_nonneg _, pg_metadata_duration d ctx dur,
      fun h => ((pg_success_iff d ctx dur).mp h).2⟩,
    ⟨Int.natCast_nonneg _, mysql_metadata_duration d ctx dur,
      fun h => ((mysql_success_iff d ctx dur).mp h).2⟩,
    ⟨Int.natCast_nonneg _, mongo_metadata_duration d ctx dur,
      fun h => ((mongo_success_iff d ctx dur).mp h).2⟩⟩

/-- Witness for C2: a successful PostgreSQL call at 3 ms is within the 50 ms
default, a successful MongoDB call at 2 ms is within the 10 ms ceiling. -/
theorem C2_witness :
    (PostgreSQLSerializer.serialize pgQueryW {} 3).metadata.duration = 3 ∧
    (3 : Int) ≤ timeoutOrDefault {} ∧
    (MongoDBSerializer.serialize mongoAggW {} 2).metadata.duration = 2 ∧
    (2 : Int) ≤ 10 := by
  have h := C2_duration_bounds pgQueryW {} 3
  have h2 := C2_duration_bounds mongoAggW {} 2
  exact ⟨h.1.2.1, h.1.2.2 (by rfl), h2.2.2.2.1, h2.2.2.2.2 (by rfl)⟩

/-- C10: the SQL-family serializers treat a context timeout of `0` as absent
(`context.timeout || 50`), so a recognized payload whose serialization takes
a positive time within 50 ms still succeeds despite exceeding the supplied
limit of 0. -/
theorem C10_zero_timeout_default :
    timeoutOrDefault { timeout := some 0 } = 50 ∧
    ∀ (d : Value) (dur : Nat), 0 < dur → (dur : Int) ≤ 50 →
      (PostgreSQLSerializer.canSerialize d = true →
        (PostgreSQLSerializer.serialize d { timeout := some 0 } dur).success = true) ∧
      (MySQLSerializer.canSerialize d = true →
        (MySQLSerializer.serialize d { timeout := some 0 } dur).success = true) := by
  refine ⟨rfl, ?_⟩
  intro d dur _ hdur
  constructor
  · intro hc
    exact (pg_success_iff d _ dur).mpr ⟨hc, hdur⟩
  · intro hc
    exact (mysql_success_iff d _ dur).mpr ⟨hc, hdur⟩

/-- Witness for C10: recognized SQL payloads serialized in 30 ms succeed
under a context timeout of 0. -/
theorem C10_witness :
    (PostgreSQLSerializer.serialize pgQueryW { timeout := some 0 } 30).success = true ∧
    (MySQLSerializer.serialize mysqlQueryW { timeout := some 0 } 30).success = true := by
  have h := C10_zero_timeout_default.2 pgQueryW 30 (by decide) (by decide)
  have h2 := C10_zero_timeout_default.2 mysqlQueryW 30 (by decide) (by decide)
  exact ⟨h.1 (by rfl), h2.2 (by rfl)⟩

theorem pg_metadata_serializer (d : Value) (ctx : SerializationContext) (dur : Nat) :
    (PostgreSQLSerializer.serialize d ctx dur).metadata.serializer = "postgresql" := by
  unfold PostgreSQLSerializer.serialize
  dsimp only
  split
  · split <;> rfl
  · rfl

theorem mongo_metadata_complexity (d : Value) (ctx : SerializationContext) (dur : Nat) :
    (MongoDBSerializer.serialize d ctx dur).metadata.complexity
      = MongoDBSerializer.getComplexity d := by
  unfold MongoDBSerializer.serialize
  dsimp only
  split
  · split <;> rfl
  · rfl

/-- A payload recognized simultaneously as a PostgreSQL Query and as a
PostgreSQL ErrorRecord. -/
def pgAmbigW : Value :=
  .vObj [("text", .vStr "select 1"), ("code", .vStr "42P01"), ("message", .vStr "m")]

/-- A handle with `query`/`connect`/`end` methods: recognized as both a
PostgreSQL client and a PostgreSQL pool (the two predicates test the same
three fields). -/
def pgHandleW : Value := .vObj [("query", .vFun), ("connect", .vFun), ("end", .vFun)]

/-- Counterexample to C4: the variant predicates of a family are not
mutually exclusive — one payload satisfies both the Query and the
ErrorRecord predicate, and any client handle satisfies the Client and the
Pool predicate at once. -/
theorem C4_counterexample :
    PostgreSQLSerializer.isPostgreSQLQuery pgAmbigW = true ∧
    PostgreSQLSerializer.isPostgreSQLError pgAmbigW = true ∧
    PostgreSQLSerializer.isPostgreSQLClient pgHandleW = true ∧
    PostgreSQLSerializer.isPostgreSQLPool pgHandleW = true := by
  exact ⟨rfl, rfl, rfl, rfl⟩

/-- C4 (amended): several variant predicates of a family may match one
payload; the family resolves the ambiguity by testing in the fixed order
(Query, Error, Client/Live, Pool) and serializing the first match.  What
does hold of the claim is its second half: when no predicate matches, the
family declares non-recognition (`canSerialize` is false). -/
theorem C4_first_match_dispatch :
    ∀ (d : Value) (ctx : SerializationContext) (dur : Nat),
      (PostgreSQLSerializer.isPostgreSQLQuery d = false →
        PostgreSQLSerializer.isPostgreSQLError d = false →
        PostgreSQLSerializer.isPostgreSQLClient d = false →
        PostgreSQLSerializer.isPostgreSQLPool d = false →
        PostgreSQLSerializer.canSerialize d = false) ∧
      (MySQLSerializer.isMySQLQuery d = false →
        MySQLSerializer.isMySQLError d = false →
        MySQLSerializer.isMySQLConnection d = false →
        MySQLSerializer.isMySQLPool d = false →
        MySQLSerializer.canSerialize d = false) ∧
      (MongoDBSerializer.isMongoDBQuery d = false →
        MongoDBSerializer.isMongoDBAggregation d = false →
        MongoDBSerializer.isMongoDBError d = false →
        MongoDBSerializer.canSerialize d = false) ∧
      (PostgreSQLSerializer.isPostgreSQLQuery d = true →
        (dur : Int) ≤ timeoutOrDefault ctx →
        (PostgreSQLSerializer.serialize d ctx dur).data
          = some (PostgreSQLSerializer.serializeQuery d)) := by
  intro d ctx dur
  refine ⟨?_, ?_, ?_, fun hq hd => pg_query_first_match d ctx dur hq hd⟩
  · intro h1 h2 h3 h4
    simp [PostgreSQLSerializer.canSerialize, h1, h2, h3, h4]
  · intro h1 h2 h3 h4
    simp [MySQLSerializer.canSerialize, h1, h2, h3, h4]
  · intro h1 h2 h3
    simp [MongoDBSerializer.canSerialize, h1, h2, h3]

/-- Witness for C4 (amended): the unrecognized payload yields
`canSerialize = false`, and the doubly-matched payload is serialized as a
Query. -/
theorem C4_witness :
    PostgreSQLSerializer.canSerialize unrecW = false ∧
    (PostgreSQLSerializer.serialize pgAmbigW {} 0).data
      = some (PostgreSQLSerializer.serializeQuery pgAmbigW) := by
  have h := C4_first_match_dispatch unrecW {} 0
  have h2 := C4_first_match_dispatch pgAmbigW {} 0
  exact ⟨h.1 rfl rfl rfl rfl, h2.2.2.2 rfl (by decide)⟩

/-- C6: a payload dispatched as a MongoDB aggregation whose `pipeline` is an
array of 9 stages is classified `high` (the stage count 9 meets the `≥ 8`
threshold), both by `getComplexity` and in the envelope metadata. -/
theorem C6_nine_stage_pipeline_high :
    ∀ (d : Value) (l : List Value) (ctx : SerializationContext) (dur : Nat),
      MongoDBSerializer.isMongoDBQuery d = false →
      MongoDBSerializer.isMongoDBAggregation d = true →
      d.getField "pipeline" = .vArr l →
      l.length = 9 →
      MongoDBSerializer.getComplexity d = .high ∧
      (MongoDBSerializer.serialize d ctx dur).metadata.complexity = .high := by
  intro d l ctx dur hq ha hpipe hlen
  have hg : MongoDBSerializer.getComplexity d = .high := by
    simp only [MongoDBSerializer.getComplexity, hq, ha,
      MongoDBSerializer.assessAggregationComplexity, hpipe, Bool.false_eq_true,
      if_false, if_true]
    rw [hlen, if_pos (by omega)]
  exact ⟨hg, by rw [mongo_metadata_complexity, hg]⟩

/-- Witness for C6 at the 9-stage concrete pipeline. -/
theorem C6_witness :
    MongoDBSerializer.getComplexity mongoAggW = Complexity.high ∧
    (MongoDBSerializer.serialize mongoAggW {} 2).metadata.complexity = Complexity.high := by
  have h := C6_nine_stage_pipeline_high mongoAggW
    [.vNum 1, .vNum 2, .vNum 3, .vNum 4, .vNum 5, .vNum 6, .vNum 7, .vNum 8, .vNum 9]
    {} 2 rfl rfl rfl rfl
  exact h

/-- C8: the spec's PostgreSQL scenario — the concrete query payload with the
default (empty) context succeeds whenever its elapsed time is under 50 ms,
with `metadata.serializer = "postgresql"` and `metadata.duration` the
(sub-50) measurement.  (That the projection of this small payload does in
fact complete within 50 ms is a wall-clock fact outside the model; the
elapsed time is a parameter here.) -/
theorem C8_pg_scenario :
    ∀ dur : Nat, dur < 50 →
      (PostgreSQLSerializer.serialize pgQueryW {} dur).success = true ∧
      (PostgreSQLSerializer.serialize pgQueryW {} dur).metadata.serializer = "postgresql" ∧
      (PostgreSQLSerializer.serialize pgQueryW {} dur).metadata.duration = dur ∧
      (PostgreSQLSerializer.serialize pgQueryW {} dur).metadata.duration < 50 := by
  intro dur h
  refine ⟨(pg_success_iff _ _ _).mpr ⟨by rfl, by simp [timeoutOrDefault]; omega⟩,
    pg_metadata_serializer _ _ _, pg_metadata_duration _ _ _, ?_⟩
  rw [pg_metadata_duration]
  exact h

/-- Witness for C8 at a 3 ms measurement. -/
theorem C8_witness :
    (PostgreSQLSerializer.serialize pgQueryW {} 3).success = true ∧
    (PostgreSQLSerializer.serialize pgQueryW {} 3).metadata.serializer = "postgresql" ∧
    (PostgreSQLSerializer.serialize pgQueryW {} 3).metadata.duration = 3 ∧
    (PostgreSQLSerializer.serialize pgQueryW {} 3).metadata.duration < 50 :=
  C8_pg_scenario 3 (by decide)

/-! ### Substring/occurrence lemmas and the join-monotonicity analysis -/

theorem containsLit_iff_countPatAux (pat : List Char) (hp : pat ≠ []) :
    ∀ (fuel : Nat) (s : List Char), s.length ≤ fuel →
      (containsLit s pat = true ↔ 0 < countPatAux (tryLitPat pat) fuel s) := by
  intro fuel
  induction fuel with
  | zero =>
    intro s hs
    have : s = [] := List.length_eq_zero.mp (Nat.le_zero.mp hs)
    subst this
    simp [containsLit, countPatAux, List.isEmpty_iff, hp]
  | succ fuel ih =>
    intro s hs
    cases s with
    | nil => simp [containsLit, countPatAux, List.isEmpty_iff, hp]
    | cons c cs =>
      obtain ⟨p, ps, rfl⟩ : ∃ p ps, pat = p :: ps := by
        cases pat with
        | nil => exact absurd rfl hp
        | cons p ps => exact ⟨p, ps, rfl⟩
      by_cases hpre : (p :: ps).isPrefixOf (c :: cs) = true
      · simp [containsLit, countPatAux, tryLitPat, hpre]
      · have hne : (p :: ps).isPrefixOf (c :: cs) = false := by
          simp only [Bool.not_eq_true] at hpre
          exact hpre
        have hcs : cs.length ≤ fuel := by
          simp only [List.length_cons] at hs
          omega
        simp only [containsLit, countPatAux, tryLitPat, hne, if_false, Bool.false_or]
        exact ih cs hcs

/-- A literal pattern occurs in `s` exactly when its non-overlapping
occurrence count is positive (`s.includes(p)` agrees with
`(s.match(p-global) || []).length > 0`). -/
theorem containsLit_iff_countLit_pos (s pat : List Char) (hp : pat ≠ []) :
    containsLit s pat = true ↔ 0 < countLit s pat :=
  containsLit_iff_countPatAux pat hp s.length s le_rfl

/-- The `≥ 8 / ≥ 4` thresholding is monotone in the score. -/
theorem sqlBucket_rank_mono {a b : Nat} (h : a ≤ b) :
    (sqlBucket a).rank ≤ (sqlBucket b).rank := by
  unfold sqlBucket
  split_ifs <;> simp [Complexity.rank] <;> omega

/-- With every non-join operation flag fixed, the combined
operation-kind-plus-join score is monotone in the join count: losing the
join-free-`select` bonus (+1) is always outweighed by the first join's +2. -/
theorem opJoin_mono (s1 s2 : String)
    (hsel : strIncludes s1 "select" = strIncludes s2 "select")
    (hins : strIncludes s1 "insert" = strIncludes s2 "insert")
    (hupd : strIncludes s1 "update" = strIncludes s2 "update")
    (hdel : strIncludes s1 "delete" = strIncludes s2 "delete")
    (hcre : strIncludes s1 "create" = strIncludes s2 "create")
    (halt : strIncludes s1 "alter" = strIncludes s2 "alter")
    (hdrop : strIncludes s1 "drop" = strIncludes s2 "drop")
    (hj : countLit s1.data "join".data ≤ countLit s2.data "join".data) :
    sqlOperationScore s1 + sqlJoinScore s1 ≤ sqlOperationScore s2 + sqlJoinScore s2 := by
  have hiff1 := containsLit_iff_countLit_pos s1.data "join".data (by decide)
  have hiff2 := containsLit_iff_countLit_pos s2.data "join".data (by decide)
  unfold sqlOperationScore sqlJoinScore
  unfold strIncludes at *
  cases hJ1 : containsLit s1.data "join".data <;> cases hJ2 : containsLit s2.data "join".data
  · simp [hJ1, hJ2, hsel, hins, hupd, hdel, hcre, halt, hdrop]
  · have hc2 : 0 < countLit s2.data "join".data := hiff2.mp hJ2
    simp only [hJ1, hJ2, hsel, hins, hupd, hdel, hcre, halt, hdrop, Bool.not_false,
      Bool.not_true, Bool.and_true, Bool.and_false, if_false, Nat.add_zero]
    cases hS : containsLit s2.data "select".data
    · simp only [hS, Bool.false_eq_true, if_false]
      exact Nat.le_add_right _ _
    · simp only [hS, if_true]
      calc 1 ≤ 2 * countLit s2.data "join".data := by omega
        _ ≤ _ := Nat.le_add_left _ _
  · have hc1 : 0 < countLit s1.data "join".data := hiff1.mp hJ1
    have hc2 : countLit s2.data "join".data = 0 := by
      by_contra h
      have h2 := hiff2.mpr (Nat.pos_of_ne_zero h)
      rw [hJ2] at h2
      exact Bool.noConfusion h2
    omega
  · simp only [hJ1, hJ2, hsel, hins, hupd, hdel, hcre, halt, hdrop, Bool.not_true,
      Bool.and_false, Bool.false_eq_true, if_false, if_true]
    have h2 : 2 * countLit s1.data "join".data ≤ 2 * countLit s2.data "join".data := by
      omega
    exact Nat.add_le_add_left h2 _

/-- A MySQL `drop` query: operation score 4 → `medium`. -/
def mysqlDropW : Value := .vObj [("sql", .vStr "drop table t")]

/-- The same query with the four characters `join` inserted inside the word
`drop`: the DDL flag is destroyed, one join occurrence appears, and the
score falls to 2 → `low`. -/
def mysqlDropJoinW : Value := .vObj [("sql", .vStr "drjoinop table t")]

/-- Counterexample to C5 as stated: inserting one `join` occurrence into a
query can strictly LOWER the bucket, because the inserted text can destroy
another scored feature (here the `drop` operation flag). -/
theorem C5_counterexample :
    MySQLSerializer.isMySQLQuery mysqlDropW = true ∧
    MySQLSerializer.isMySQLQuery mysqlDropJoinW = true ∧
    "drjoinop table t" = "dr" ++ "join" ++ "op table t" ∧
    "drop table t" = "dr" ++ "op table t" ∧
    countLit (jsToLower "drjoinop table t").data "join".data
      = countLit (jsToLower "drop table t").data "join".data + 1 ∧
    MySQLSerializer.assessQueryComplexity mysqlDropW = .medium ∧
    MySQLSerializer.assessQueryComplexity mysqlDropJoinW = .low ∧
    (MySQLSerializer.assessQueryComplexity mysqlDropJoinW).rank
      < (MySQLSerializer.assessQueryComplexity mysqlDropW).rank := by
  refine ⟨rfl, rfl, by decide, by decide, by decide, rfl, rfl, by decide⟩

/-- C5 (amended): for both cited SQL families, complexity bucketing is
monotonic in the join count provided the join edit leaves every other scored
feature unchanged — the operation-kind flags, the subquery score, the
special-function flags, the length tier and the parameter bonus, plus, for
the PostgreSQL scorer, its CTE and window-function score terms.  (As stated,
the claim fails: inserting the literal text `join` can destroy another
substring-based feature and lower the bucket.) -/
theorem C5_join_monotonicity :
    ∀ (d1 d2 : Value),
      (strIncludes (jsToLower (strFieldOf d1 "sql")) "select"
          = strIncludes (jsToLower (strFieldOf d2 "sql")) "select" →
        strIncludes (jsToLower (strFieldOf d1 "sql")) "insert"
          = strIncludes (jsToLower (strFieldOf d2 "sql")) "insert" →
        strIncludes (jsToLower (strFieldOf d1 "sql")) "update"
          = strIncludes (jsToLower (strFieldOf d2 "sql")) "update" →
        strIncludes (jsToLower (strFieldOf d1 "sql")) "delete"
          = strIncludes (jsToLower (strFieldOf d2 "sql")) "delete" →
        strIncludes (jsToLower (strFieldOf d1 "sql")) "create"
          = strIncludes (jsToLower (strFieldOf d2 "sql")) "create" →
        strIncludes (jsToLower (strFieldOf d1 "sql")) "alter"
          = strIncludes (jsToLower (strFieldOf d2 "sql")) "alter" →
        strIncludes (jsToLower (strFieldOf d1 "sql")) "drop"
          = strIncludes (jsToLower (strFieldOf d2 "sql")) "drop" →
        sqlSubqueryScore (jsToLower (strFieldOf d1 "sql"))
          = sqlSubqueryScore (jsToLower (strFieldOf d2 "sql")) →
        (strIncludes (jsToLower (strFieldOf d1 "sql")) "group_concat"
            || strIncludes (jsToLower (strFieldOf d1 "sql")) "json_")
          = (strIncludes (jsToLower (strFieldOf d2 "sql")) "group_concat"
            || strIncludes (jsToLower (strFieldOf d2 "sql")) "json_") →
        (strIncludes (jsToLower (strFieldOf d1 "sql")) "window"
            || strIncludes (jsToLower (strFieldOf d1 "sql")) "over(")
          = (strIncludes (jsToLower (strFieldOf d2 "sql")) "window"
            || strIncludes (jsToLower (strFieldOf d2 "sql")) "over(") →
        lengthBonus (jsToLower (strFieldOf d1 "sql"))
          = lengthBonus (jsToLower (strFieldOf d2 "sql")) →
        valuesBonus (d1.getField "values") = valuesBonus (d2.getField "values") →
        countLit (jsToLower (strFieldOf d1 "sql")).data "join".data
          ≤ countLit (jsToLower (strFieldOf d2 "sql")).data "join".data →
        (MySQLSerializer.assessQueryComplexity d1).rank
          ≤ (MySQLSerializer.assessQueryComplexity d2).rank) ∧
      (strIncludes (jsToLower (strFieldOf d1 "text")) "select"
          = strIncludes (jsToLower (strFieldOf d2 "text")) "select" →
        strIncludes (jsToLower (strFieldOf d1 "text")) "insert"
          = strIncludes (jsToLower (strFieldOf d2 "text")) "insert" →
        strIncludes (jsToLower (strFieldOf d1 "text")) "update"
          = strIncludes (jsToLower (strFieldOf d2 "text")) "update" →
        strIncludes (jsToLower (strFieldOf d1 "text")) "delete"
          = strIncludes (jsToLower (strFieldOf d2 "text")) "delete" →
        strIncludes (jsToLower (strFieldOf d1 "text")) "create"
          = strIncludes (jsToLower (strFieldOf d2 "text")) "create" →
        strIncludes (jsToLower (strFieldOf d1 "text")) "alter"
          = strIncludes (jsToLower (strFieldOf d2 "text")) "alter" →
        strIncludes (jsToLower (strFieldOf d1 "text")) "drop"
          = strIncludes (jsToLower (strFieldOf d2 "text")) "drop" →
        (if strIncludes (jsToLower (strFieldOf d1 "text")) "with" then
            3 * countPat tryCtePat (jsToLower (strFieldOf d1 "text")).data
          else 0)
          = (if strIncludes (jsToLower (strFieldOf d2 "text")) "with" then
            3 * countPat tryCtePat (jsToLower (strFieldOf d2 "text")).data
          else 0) →
        (if strIncludes (jsToLower (strFieldOf d1 "text")) "over(" then
            2 * countPat tryOverPat (jsToLower (strFieldOf d1 "text")).data
          else 0)
          = (if strIncludes (jsToLower (strFieldOf d2 "text")) "over(" then
            2 * countPat tryOverPat (jsToLower (strFieldOf d2 "text")).data
          else 0) →
        sqlSubqueryScore (jsToLower (strFieldOf d1 "text"))
          = sqlSubqueryScore (jsToLower (strFieldOf d2 "text")) →
        (strIncludes (jsToLower (strFieldOf d1 "text")) "json_"
            || strIncludes (jsToLower (strFieldOf d1 "text")) "array_")
          = (strIncludes (jsToLower (strFieldOf d2 "text")) "json_"
            || strIncludes (jsToLower (strFieldOf d2 "text")) "array_") →
        (strIncludes (jsToLower (strFieldOf d1 "text")) "regexp_"
            || strIncludes (jsToLower (strFieldOf d1 "text")) "similar to")
          = (strIncludes (jsToLower (strFieldOf d2 "text")) "regexp_"
            || strIncludes (jsToLower (strFieldOf d2 "text")) "similar to") →
        (strIncludes (jsToLower (strFieldOf d1 "text")) "full text"
            || strIncludes (jsToLower (strFieldOf d1 "text")) "ts_")
          = (strIncludes (jsToLower (strFieldOf d2 "text")) "full text"
            || strIncludes (jsToLower (strFieldOf d2 "text")) "ts_") →
        lengthBonus (jsToLower (strFieldOf d1 "text"))
          = lengthBonus (jsToLower (strFieldOf d2 "text")) →
        valuesBonus (d1.getField "values") = valuesBonus (d2.getField "values") →
        countLit (jsToLower (strFieldOf d1 "text")).data "join".data
          ≤ countLit (jsToLower (strFieldOf d2 "text")).data "join".data →
        (PostgreSQLSerializer.assessQueryComplexity d1).rank
          ≤ (PostgreSQLSerializer.assessQueryComplexity d2).rank) := by
  intro d1 d2
  constructor
  · set s1 := jsToLower (strFieldOf d1 "sql") with hs1
    set s2 := jsToLower (strFieldOf d2 "sql") with hs2
    intro hsel hins hupd hdel hcre halt hdrop hsub hfun hwin hlen hval hj
    have key := opJoin_mono s1 s2 hsel hins hupd hdel hcre halt hdrop hj
    unfold MySQLSerializer.assessQueryComplexity
    rw [← hs1, ← hs2]
    dsimp only
    apply sqlBucket_rank_mono
    rw [hsub, hfun, hwin, hlen, hval]
    omega
  · set s1 := jsToLower (strFieldOf d1 "text") with hs1
    set s2 := jsToLower (strFieldOf d2 "text") with hs2
    intro hsel hins hupd hdel hcre halt hdrop hcte hwin hsub hjson hre hft hlen hval hj
    have key := opJoin_mono s1 s2 hsel hins hupd hdel hcre halt hdrop hj
    unfold PostgreSQLSerializer.assessQueryComplexity
    rw [← hs1, ← hs2]
    dsimp only
    apply sqlBucket_rank_mono
    rw [hcte, hwin, hsub, hjson, hre, hft, hlen, hval]
    omega

/-- Witness for the amended C5 at a one-join versus two-join `select`, for
both families. -/
theorem C5_witness :
    (MySQLSerializer.assessQueryComplexity
        (.vObj [("sql", .vStr "select * from a join b")])).rank
      ≤ (MySQLSerializer.assessQueryComplexity
        (.vObj [("sql", .vStr "select * from a join b join c")])).rank ∧
    (PostgreSQLSerializer.assessQueryComplexity
        (.vObj [("text", .vStr "select * from a join b")])).rank
      ≤ (PostgreSQLSerializer.assessQueryComplexity
        (.vObj [("text", .vStr "select * from a join b join c")])).rank := by
  constructor
  · exact (C5_join_monotonicity
      (.vObj [("sql", .vStr "select * from a join b")])
      (.vObj [("sql", .vStr "select * from a join b join c")])).1
      (by decide) (by decide) (by decide) (by decide) (by decide) (by decide) (by decide)
      (by decide) (by decide) (by decide) (by decide) (by decide) (by decide)
  · exact (C5_join_monotonicity
      (.vObj [("text", .vStr "select * from a join b")])
      (.vObj [("text", .vStr "select * from a join b join c")])).2
      (by decide) (by decide) (by decide) (by decide) (by decide) (by decide) (by decide)
      (by decide) (by decide) (by decide) (by decide) (by decide) (by decide) (by decide)
      (by decide) (by decide)

/-! ### Redaction fixed-point lemmas -/

theorem replaceAllAux_eq_self (tryAt : List Char → Option Nat) (cb : List Char → List Char) :
    ∀ (s : List Char), (∀ t : List Char, t <:+ s → tryAt t = none) →
      ∀ fuel, replaceAllAux tryAt cb fuel s = s := by
  intro s
  induction s with
  | nil =>
    intro _ fuel
    cases fuel <;> rfl
  | cons c cs ih =>
    intro h fuel
    cases fuel with
    | zero => rfl
    | succ fuel =>
      have hc : tryAt (c :: cs) = none := h (c :: cs) (List.suffix_refl _)
      simp only [replaceAllAux, hc]
      rw [ih (fun t ht => h t (ht.trans (List.suffix_cons c cs))) fuel]

/-- The keyword patterns require a quote character to match, so a quote-free
string has no match at any position. -/
theorem tryKwPat_eq_none_of_noQuote (kw s : List Char)
    (h : ∀ ch ∈ s, isQuoteCh ch = false) : tryKwPat kw s = none := by
  simp only [tryKwPat]
  split
  · split
    case _ s3 heq1 =>
      split
      case _ q s5 heq2 =>
        have hqmem : q ∈ s := by
          have h1 : q ∈ s3.drop (countWhile isWsJS s3) := by
            rw [heq2]
            exact List.mem_cons_self _ _
          have h2 : q ∈ ('=' :: s3) := List.mem_cons_of_mem _ (List.drop_subset _ _ h1)
          rw [← heq1] at h2
          exact List.drop_subset _ _ (List.drop_subset _ _ h2)
        simp [h q hqmem]
      case _ => rfl
    case _ => rfl
  · rfl

/-- The connection-string pattern requires an `@`, so an `@`-free string has
no match at any position. -/
theorem trySlashPat_eq_none_of_noAt (s : List Char)
    (h : ∀ ch ∈ s, (ch == '@') = false) : trySlashPat s = none := by
  simp only [trySlashPat]
  split
  case _ s1 =>
    split
    case _ rest heq =>
      exfalso
      have h1 : '@' ∈ s1.drop (countWhile (fun c => !(c == '/' || c == '@')) s1) := by
        rw [heq]
        exact List.mem_cons_self _ _
      have h2 : '@' ∈ ('/' :: s1) := List.mem_cons_of_mem _ (List.drop_subset _ _ h1)
      have := h '@' h2
      simp at this
    case _ => rfl
  case _ => rfl

theorem replaceAllPat_kw_eq_self (kw : List Char) (cb : List Char → List Char)
    (s : List Char) (h : ∀ ch ∈ s, isQuoteCh ch = false) :
    replaceAllPat (tryKwPat kw) cb s = s :=
  replaceAllAux_eq_self _ cb s
    (fun t ht => tryKwPat_eq_none_of_noQuote kw t (fun ch hch => h ch (ht.subset hch)))
    s.length

theorem replaceAllPat_slash_eq_self (cb : List Char → List Char)
    (s : List Char) (h : ∀ ch ∈ s, (ch == '@') = false) :
    replaceAllPat trySlashPat cb s = s :=
  replaceAllAux_eq_self _ cb s
    (fun t ht => trySlashPat_eq_none_of_noAt t (fun ch hch => h ch (ht.subset hch)))
    s.length

/-- A string without quotes and without `@` is a fixed point of all five
redaction passes. -/
theorem applyRedactPatterns_eq_self (s : List Char)
    (hq : ∀ ch ∈ s, isQuoteCh ch = false) (ha : ∀ ch ∈ s, (ch == '@') = false) :
    applyRedactPatterns s = s := by
  simp only [applyRedactPatterns]
  rw [replaceAllPat_kw_eq_self _ _ _ hq, replaceAllPat_kw_eq_self _ _ _ hq,
    replaceAllPat_kw_eq_self _ _ _ hq, replaceAllPat_kw_eq_self _ _ _ hq,
    replaceAllPat_slash_eq_self _ _ ha]

/-- A string fixed by redaction and within the length limit is fixed by
`sanitizeString`. -/
theorem sanitizeString_eq_self (s : String) (cfg : MergedConfig)
    (hclean : applyRedactPatterns s.data = s.data)
    (hlen : s.length ≤ cfg.maxStringLength) :
    DataSanitizer.sanitizeString s cfg = s := by
  unfold DataSanitizer.sanitizeString
  split
  · rfl
  · dsimp only
    rw [hclean]
    rw [if_neg (by
      rintro ⟨-, hgt⟩
      have hsl : s.length = s.data.length := rfl
      omega)]

theorem digit_no_quote (c : Char) (h : c.isDigit = true) : isQuoteCh c = false := by
  unfold isQuoteCh
  cases h1 : c == '\x27'
  · cases h2 : c == '"'
    · rfl
    · have := eq_of_beq h2
      subst this
      exact absurd h (by decide)
  · have := eq_of_beq h1
    subst this
    exact absurd h (by decide)

theorem digit_no_at (c : Char) (h : c.isDigit = true) : (c == '@') = false := by
  cases h1 : c == '@'
  · rfl
  · have := eq_of_beq h1
    subst this
    exact absurd h (by decide)

/-- `sanitize` on a string value is `sanitizeString` under the merged
config. -/
theorem sanitize_vStr (s : String) (c : SanitizationContext) :
    DataSanitizer.sanitize (.vStr s) c
      = .vStr (DataSanitizer.sanitizeString s (mergeConfig c)) := rfl

/-- Counterexample to C3: with the default context, sanitization is not
idempotent.  On `"//password@@"` the first pass leaves
`"/password='[REDACTED]'@"` (the connection-string replacement occurs inside
a wider `/...@` span), and a second pass redacts the remaining `/...@` span
to the different string `"password='[REDACTED]'"`. -/
theorem C3_counterexample :
    DataSanitizer.sanitize (DataSanitizer.sanitize (.vStr "//password@@") {}) {}
      ≠ DataSanitizer.sanitize (.vStr "//password@@") {} := by
  intro h
  have h2 : Value.vStr "password=\x27[REDACTED]\x27"
      = Value.vStr "/password=\x27[REDACTED]\x27@" := h
  have h3 := Value.vStr.inj h2
  exact absurd h3 (by decide)

/-- C3 (amended): sanitization is NOT idempotent in general — overlapping
connection-string spans are re-redacted differently on a second pass, and a
small `maxStringLength` re-truncates placeholders.  What does hold is the
stability of the redaction output forms themselves: for every context whose
effective maximum length is at least 21 (the longest marker; the default is
300), the four `kw='[REDACTED]'` markers and the bare `[REDACTED]` marker
are fixed points of `sanitize`, and every `[STRING_LENGTH_N]` placeholder
within the length limit is a fixed point. -/
theorem C3_markers_stable :
    ∀ (c : SanitizationContext), 21 ≤ (mergeConfig c).maxStringLength →
      (DataSanitizer.sanitize (.vStr "password=\x27[REDACTED]\x27") c
        = .vStr "password=\x27[REDACTED]\x27") ∧
      (DataSanitizer.sanitize (.vStr "user=\x27[REDACTED]\x27") c
        = .vStr "user=\x27[REDACTED]\x27") ∧
      (DataSanitizer.sanitize (.vStr "token=\x27[REDACTED]\x27") c
        = .vStr "token=\x27[REDACTED]\x27") ∧
      (DataSanitizer.sanitize (.vStr "secret=\x27[REDACTED]\x27") c
        = .vStr "secret=\x27[REDACTED]\x27") ∧
      (DataSanitizer.sanitize (.vStr "[REDACTED]") c = .vStr "[REDACTED]") ∧
      ∀ (ds : List Char), (∀ ch ∈ ds, ch.isDigit = true) →
        (String.mk ("[STRING_LENGTH_".data ++ ds ++ "]".data)).length
          ≤ (mergeConfig c).maxStringLength →
        DataSanitizer.sanitize
            (.vStr (String.mk ("[STRING_LENGTH_".data ++ ds ++ "]".data))) c
          = .vStr (String.mk ("[STRING_LENGTH_".data ++ ds ++ "]".data)) := by
  intro c h21
  refine ⟨?_, ?_, ?_, ?_, ?_, ?_⟩
  · rw [sanitize_vStr, sanitizeString_eq_self _ _ (by decide) (le_trans (by decide) h21)]
  · rw [sanitize_vStr, sanitizeString_eq_self _ _ (by decide) (le_trans (by decide) h21)]
  · rw [sanitize_vStr, sanitizeString_eq_self _ _ (by decide) (le_trans (by decide) h21)]
  · rw [sanitize_vStr, sanitizeString_eq_self _ _ (by decide) (le_trans (by decide) h21)]
  · rw [sanitize_vStr, sanitizeString_eq_self _ _ (by decide) (le_trans (by decide) h21)]
  · intro ds hds hlen
    have hmem : ∀ ch ∈ ("[STRING_LENGTH_".data ++ ds ++ "]".data),
        isQuoteCh ch = false ∧ (ch == '@') = false := by
      have hpre : ∀ ch ∈ "[STRING_LENGTH_".data,
          isQuoteCh ch = false ∧ (ch == '@') = false := by decide
      have hsuf : ∀ ch ∈ "]".data, isQuoteCh ch = false ∧ (ch == '@') = false := by decide
      intro ch hch
      rcases List.mem_append.mp hch with hch1 | hch2
      · rcases List.mem_append.mp hch1 with hch3 | hch4
        · exact hpre ch hch3
        · exact ⟨digit_no_quote ch (hds ch hch4), digit_no_at ch (hds ch hch4)⟩
      · exact hsuf ch hch2
    rw [sanitize_vStr, sanitizeString_eq_self _ _ ?_ hlen]
    exact applyRedactPatterns_eq_self _ (fun ch hch => (hmem ch hch).1)
      (fun ch hch => (hmem ch hch).2)

/-- Witness for the amended C3: the password marker and the placeholder
`[STRING_LENGTH_42]` are fixed points under the default context. -/
theorem C3_witness :
    DataSanitizer.sanitize (.vStr "password=\x27[REDACTED]\x27") {}
      = .vStr "password=\x27[REDACTED]\x27" ∧
    DataSanitizer.sanitize (.vStr (String.mk ("[STRING_LENGTH_".data ++ "42".data ++ "]".data))) {}
      = .vStr (String.mk ("[STRING_LENGTH_".data ++ "42".data ++ "]".data)) := by
  have h := C3_markers_stable {} (by decide)
  exact ⟨h.1, h.2.2.2.2.2 "42".data (by decide) (by decide)⟩

/-! ### Clean values: the sanitizer round-trip -/

/-- Some position of `s` matches the pattern (the positions scanned by
`replaceAllAux`). -/
def hasPatMatch (tryAt : List Char → Option Nat) : List Char → Bool
  | [] => false
  | c :: cs => (tryAt (c :: cs)).isSome || hasPatMatch tryAt cs

/-- A string match-free for all five default redaction patterns and within
the configured maximum length. -/
def cleanString (cfg : MergedConfig) (s : String) : Bool :=
  !hasPatMatch (tryKwPat "password".data) s.data &&
  !hasPatMatch (tryKwPat "user".data) s.data &&
  !hasPatMatch (tryKwPat "token".data) s.data &&
  !hasPatMatch (tryKwPat "secret".data) s.data &&
  !hasPatMatch trySlashPat s.data &&
  decide (s.length ≤ cfg.maxStringLength)

mutual

/-- No object key anywhere in the value is sensitive, and every string is
match-free and within the length limit. -/
def cleanValue (cfg : MergedConfig) : Value → Bool
  | .vStr s => cleanString cfg s
  | .vObj fs => cleanFields cfg fs
  | .vArr es => cleanElems cfg es
  | _ => true

def cleanElems (cfg : MergedConfig) : List Value → Bool
  | [] => true
  | e :: tl => cleanValue cfg e && cleanElems cfg tl

def cleanFields (cfg : MergedConfig) : List (String × Value) → Bool
  | [] => true
  | (k, v) :: tl => !isSensitiveKey cfg k && cleanValue cfg v && cleanFields cfg tl

end

theorem replaceAllAux_eq_self_of_no_match (tryAt : List Char → Option Nat)
    (cb : List Char → List Char) :
    ∀ s : List Char, hasPatMatch tryAt s = false →
      ∀ fuel, replaceAllAux tryAt cb fuel s = s := by
  intro s
  induction s with
  | nil =>
    intro _ fuel
    cases fuel <;> rfl
  | cons c cs ih =>
    intro h fuel
    rw [hasPatMatch, Bool.or_eq_false_iff] at h
    have h1 : tryAt (c :: cs) = none := by
      cases ht : tryAt (c :: cs)
      · rfl
      · rw [ht] at h
        simp at h
    cases fuel with
    | zero => rfl
    | succ fuel =>
      simp only [replaceAllAux, h1]
      rw [ih h.2 fuel]

theorem sanitizeString_eq_self_of_clean (s : String) (cfg : MergedConfig)
    (h : cleanString cfg s = true) : DataSanitizer.sanitizeString s cfg = s := by
  simp only [cleanString, Bool.and_eq_true, Bool.not_eq_true', decide_eq_true_eq] at h
  obtain ⟨⟨⟨⟨⟨h1, h2⟩, h3⟩, h4⟩, h5⟩, h6⟩ := h
  apply sanitizeString_eq_self s cfg ?_ h6
  simp only [applyRedactPatterns, replaceAllPat]
  rw [replaceAllAux_eq_self_of_no_match _ _ _ h1, replaceAllAux_eq_self_of_no_match _ _ _ h2,
    replaceAllAux_eq_self_of_no_match _ _ _ h3, replaceAllAux_eq_self_of_no_match _ _ _ h4,
    replaceAllAux_eq_self_of_no_match _ _ _ h5]

/-- Merged configurations always carry a non-zero maximum length (`0` is
falsy and falls back to 300). -/
theorem merge_max_nonzero (c : SanitizationContext) : (mergeConfig c).maxStringLength ≠ 0 := by
  unfold mergeConfig
  cases hm : c.maxStringLength with
  | none => simp
  | some m =>
    cases m with
    | zero => simp
    | succ m => simp

theorem mergeConfig_ctxOfMerged (cfg : MergedConfig) (h : cfg.maxStringLength ≠ 0) :
    mergeConfig (ctxOfMerged cfg) = cfg := by
  obtain ⟨sf, m, dp⟩ := cfg
  cases m with
  | zero => exact absurd rfl h
  | succ m => rfl

/-- Joint induction (on `sizeOf`): clean values are fixed points of the
sanitizer walk. -/
theorem clean_id_strong (cfg : MergedConfig) (hm : cfg.maxStringLength ≠ 0) :
    ∀ n : Nat,
      (∀ v : Value, sizeOf v ≤ n → cleanValue cfg v = true →
        DataSanitizer.sanitize v (ctxOfMerged cfg) = v) ∧
      (∀ es : List Value, sizeOf es ≤ n → cleanElems cfg es = true →
        DataSanitizer.sanitizeElems es cfg = es) ∧
      (∀ fs : List (String × Value), sizeOf fs ≤ n → cleanFields cfg fs = true →
        DataSanitizer.sanitizeFields fs cfg = fs) := by
  intro n
  induction n with
  | zero =>
    refine ⟨?_, ?_, ?_⟩
    · intro v hv _
      exfalso
      cases v <;> simp at hv
    · intro es hes _
      exfalso
      cases es <;> simp at hes
    · intro fs hfs _
      exfalso
      cases fs <;> simp at hfs
  | succ n ih =>
    refine ⟨?_, ?_, ?_⟩
    · intro v hv hclean
      cases v with
      | vStr s =>
        rw [sanitize_vStr, mergeConfig_ctxOfMerged cfg hm]
        exact congrArg Value.vStr (sanitizeString_eq_self_of_clean s cfg hclean)
      | vObj fs =>
        show Value.vObj (DataSanitizer.sanitizeFields fs (mergeConfig (ctxOfMerged cfg)))
            = Value.vObj fs
        rw [mergeConfig_ctxOfMerged cfg hm]
        refine congrArg Value.vObj (ih.2.2 fs ?_ hclean)
        simp at hv
        omega
      | vArr es =>
        show Value.vArr (DataSanitizer.sanitizeElems es (mergeConfig (ctxOfMerged cfg)))
            = Value.vArr es
        rw [mergeConfig_ctxOfMerged cfg hm]
        refine congrArg Value.vArr (ih.2.1 es ?_ hclean)
        simp at hv
        omega
      | vNull => rfl
      | vUndefined => rfl
      | vBool b => rfl
      | vNum m => rfl
      | vFun => rfl
    · intro es hes hclean
      cases es with
      | nil => rfl
      | cons e tl =>
        have h' : cleanValue cfg e = true ∧ cleanElems cfg tl = true := by
          have h2 : (cleanValue cfg e && cleanElems cfg tl) = true := hclean
          exact Bool.and_eq_true_iff.mp h2
        simp only [List.cons.sizeOf_spec] at hes
        show DataSanitizer.sanitize e (ctxOfMerged cfg) :: DataSanitizer.sanitizeElems tl cfg
            = e :: tl
        rw [ih.1 e (by omega) h'.1, ih.2.1 tl (by omega) h'.2]
    · intro fs hfs hclean
      cases fs with
      | nil => rfl
      | cons kv tl =>
        obtain ⟨k, v⟩ := kv
        have h' : (!isSensitiveKey cfg k && cleanValue cfg v) = true
            ∧ cleanFields cfg tl = true := by
          have h2 : ((!isSensitiveKey cfg k && cleanValue cfg v) && cleanFields cfg tl)
              = true := hclean
          exact Bool.and_eq_true_iff.mp h2
        have hk : isSensitiveKey cfg k = false := by
          have := (Bool.and_eq_true_iff.mp h'.1).1
          simp only [Bool.not_eq_true'] at this
          exact this
        have hv : cleanValue cfg v = true := (Bool.and_eq_true_iff.mp h'.1).2
        simp only [List.cons.sizeOf_spec, Prod.mk.sizeOf_spec] at hfs
        have htl := ih.2.2 tl (by omega) h'.2
        cases v with
        | vStr s =>
          simp only [DataSanitizer.sanitizeFields, hk, Bool.false_eq_true, if_false, htl,
            List.cons.injEq, Prod.mk.injEq, true_and, and_true]
          exact congrArg Value.vStr (sanitizeString_eq_self_of_clean s cfg hv)
        | vObj fs2 =>
          have hsz : sizeOf fs2 ≤ n := by
            simp only [Value.vObj.sizeOf_spec] at hfs
            omega
          cases hd : cfg.enableDeepSanitization with
          | false =>
            simp [DataSanitizer.sanitizeFields, hk, hd, htl]
          | true =>
            have hrfl : DataSanitizer.sanitizeObject (.vObj fs2) cfg
                = Value.vObj (DataSanitizer.sanitizeFields fs2 cfg) := rfl
            simp only [DataSanitizer.sanitizeFields, hk, hd, Bool.false_eq_true, if_false,
              if_true, htl, hrfl, List.cons.injEq, Prod.mk.injEq, true_and, and_true]
            exact congrArg Value.vObj (ih.2.2 fs2 hsz hv)
        | vArr es2 =>
          have hsz : sizeOf es2 ≤ n := by
            simp only [Value.vArr.sizeOf_spec] at hfs
            omega
          cases hd : cfg.enableDeepSanitization with
          | false =>
            simp [DataSanitizer.sanitizeFields, hk, hd, htl]
          | true =>
            have hrfl : DataSanitizer.sanitizeObject (.vArr es2) cfg
                = Value.vArr (DataSanitizer.sanitizeElems es2 cfg) := rfl
            simp only [DataSanitizer.sanitizeFields, hk, hd, Bool.false_eq_true, if_false,
              if_true, htl, hrfl, List.cons.injEq, Prod.mk.injEq, true_and, and_true]
            exact congrArg Value.vArr (ih.2.1 es2 hsz hv)
        | vNull => simp [DataSanitizer.sanitizeFields, hk, htl]
        | vUndefined => simp [DataSanitizer.sanitizeFields, hk, htl]
        | vBool b => simp [DataSanitizer.sanitizeFields, hk, htl]
        | vNum m => simp [DataSanitizer.sanitizeFields, hk, htl]
        | vFun => simp [DataSanitizer.sanitizeFields, hk, htl]

/-- Sanitizing under a context is sanitizing under its merged config re-read
as a context (merging is idempotent). -/
theorem sanitize_ctx_eq (v : Value) (c : SanitizationContext) :
    DataSanitizer.sanitize v c = DataSanitizer.sanitize v (ctxOfMerged (mergeConfig c)) := by
  cases v with
  | vStr s =>
    rw [sanitize_vStr, sanitize_vStr, mergeConfig_ctxOfMerged _ (merge_max_nonzero c)]
  | vObj fs =>
    show Value.vObj (DataSanitizer.sanitizeFields fs (mergeConfig c))
        = Value.vObj (DataSanitizer.sanitizeFields fs (mergeConfig (ctxOfMerged (mergeConfig c))))
    rw [mergeConfig_ctxOfMerged _ (merge_max_nonzero c)]
  | vArr es =>
    show Value.vArr (DataSanitizer.sanitizeElems es (mergeConfig c))
        = Value.vArr (DataSanitizer.sanitizeElems es (mergeConfig (ctxOfMerged (mergeConfig c))))
    rw [mergeConfig_ctxOfMerged _ (merge_max_nonzero c)]
  | vNull => rfl
  | vUndefined => rfl
  | vBool b => rfl
  | vNum m => rfl
  | vFun => rfl

/-- A 301-character string of `a`s: no sensitive keys, no pattern matches. -/
def longAW : String := String.mk (List.replicate 301 'a')

set_option maxRecDepth 40000 in
/-- Counterexample to C7: a redaction-match-free string longer than the
default 300-character limit is NOT returned unchanged — it is replaced by
the `[STRING_LENGTH_301]` placeholder. -/
theorem C7_counterexample :
    hasPatMatch (tryKwPat "password".data) longAW.data = false ∧
    hasPatMatch (tryKwPat "user".data) longAW.data = false ∧
    hasPatMatch (tryKwPat "token".data) longAW.data = false ∧
    hasPatMatch (tryKwPat "secret".data) longAW.data = false ∧
    hasPatMatch trySlashPat longAW.data = false ∧
    DataSanitizer.sanitize (.vStr longAW) {} ≠ .vStr longAW := by
  refine ⟨by decide, by decide, by decide, by decide, by decide, ?_⟩
  intro h
  have h2 : Value.vStr "[STRING_LENGTH_301]" = Value.vStr longAW := h
  have h3 := Value.vStr.inj h2
  exact absurd (congrArg String.length h3) (by decide)

/-- C7 (amended): sanitize is the identity on values with no sensitive key,
no redaction-pattern match, AND every string within the configured maximum
length — the length condition must be added to the claim, since over-long
clean strings are truncated to placeholders. -/
theorem C7_nonsensitive_roundtrip :
    ∀ (c : SanitizationContext) (v : Value),
      cleanValue (mergeConfig c) v = true →
      DataSanitizer.sanitize v c = v := by
  intro c v h
  rw [sanitize_ctx_eq v c]
  exact (clean_id_strong (mergeConfig c) (merge_max_nonzero c) (sizeOf v)).1 v le_rfl h

/-- A small clean object for the C7 witness. -/
def cleanVW : Value :=
  .vObj [("name", .vStr "alice"), ("tags", .vArr [.vStr "x"]), ("n", .vNum 5)]

/-- Witness for the amended C7 at a concrete clean object. -/
theorem C7_witness : DataSanitizer.sanitize cleanVW {} = cleanVW :=
  C7_nonsensitive_roundtrip {} cleanVW (by decide)

/-! ### Heap model of the sanitizer (the frame property of C9)

The pure `Value` model cannot express mutation, so the sanitizer is
re-translated here in store-passing style: objects and arrays live in an
explicit store of cells, `const result = {}` becomes an allocation at the
end of the store, and each `result[key] = ...` assignment becomes `setField`
on that fresh cell.  Recursion is fuelled (the source has no cycle guard; a
self-referential graph would diverge, which the model renders as `none`). -/

/-- A heap value: scalars are immediate, objects/arrays are references. -/
inductive HVal where
  | hNull
  | hUndefined
  | hBool (b : Bool)
  | hNum (n : Int)
  | hStr (s : String)
  | hFun
  | hRef (a : Nat)
deriving DecidableEq

/-- A store cell: the mutable contents of one object or array. -/
inductive HCell where
  | cellObj (fields : List (String × HVal))
  | cellArr (elems : List HVal)
deriving DecidableEq

/-- The store: cells addressed by position; allocation appends. -/
abbrev Store := List HCell

/-- JS property assignment on an entry list: overwrite an existing key or
append a new one. -/
def setEntry : List (String × HVal) → String → HVal → List (String × HVal)
  | [], k, v => [(k, v)]
  | (k', v') :: tl, k, v => if k' == k then (k, v) :: tl else (k', v') :: setEntry tl k v

/-- `target[k] = v` on the object cell at address `a`. -/
def setField (σ : Store) (a : Nat) (k : String) (v : HVal) : Option Store :=
  match σ[a]? with
  | some (.cellObj fs) => some (σ.set a (.cellObj (setEntry fs k v)))
  | _ => none

/-- `target.push(v)` on the array cell at address `a`. -/
def appendElem (σ : Store) (a : Nat) (v : HVal) : Option Store :=
  match σ[a]? with
  | some (.cellArr es) => some (σ.set a (.cellArr (es ++ [v])))
  | _ => none

/-- The sanitizer's work items: `jVal` is `sanitize(value, config)`,
`jObj` is `sanitizeObject(ref, config)`, and `jElems`/`jFields` are its two
loops writing into the freshly allocated result cell `raddr`. -/
inductive SanJob where
  | jVal (v : HVal)
  | jObj (a : Nat)
  | jElems (raddr : Nat) (es : List HVal)
  | jFields (raddr : Nat) (fs : List (String × HVal))

/-- `DataSanitizer.sanitize`/`sanitizeObject` in store-passing style (the
merged config is passed through, merging being idempotent). -/
def sanitizeHeap (cfg : MergedConfig) : Nat → Store → SanJob → Option (Store × HVal)
  | 0, _, _ => none
  | fuel + 1, σ, .jVal v =>
    match v with
    | .hStr s => some (σ, .hStr (DataSanitizer.sanitizeString s cfg))
    | .hRef a => sanitizeHeap cfg fuel σ (.jObj a)
    | v => some (σ, v)
  | fuel + 1, σ, .jObj a =>
    match σ[a]? with
    | some (.cellArr es) => sanitizeHeap cfg fuel (σ ++ [.cellArr []]) (.jElems σ.length es)
    | some (.cellObj fs) => sanitizeHeap cfg fuel (σ ++ [.cellObj []]) (.jFields σ.length fs)
    | none => none
  | _ + 1, σ, .jElems raddr [] => some (σ, .hRef raddr)
  | fuel + 1, σ, .jElems raddr (e :: tl) =>
    match sanitizeHeap cfg fuel σ (.jVal e) with
    | some (σ1, v1) =>
      match appendElem σ1 raddr v1 with
      | some σ2 => sanitizeHeap cfg fuel σ2 (.jElems raddr tl)
      | none => none
    | none => none
  | _ + 1, σ, .jFields raddr [] => some (σ, .hRef raddr)
  | fuel + 1, σ, .jFields raddr ((k, v) :: tl) =>
    if isSensitiveKey cfg k then
      match setField σ raddr k (.hStr "[REDACTED]") with
      | some σ1 => sanitizeHeap cfg fuel σ1 (.jFields raddr tl)
      | none => none
    else
      match v with
      | .hRef a =>
        if cfg.enableDeepSanitization then
          match sanitizeHeap cfg fuel σ (.jObj a) with
          | some (σ1, v1) =>
            match setField σ1 raddr k v1 with
            | some σ2 => sanitizeHeap cfg fuel σ2 (.jFields raddr tl)
            | none => none
          | none => none
        else
          match setField σ raddr k (.hRef a) with
          | some σ1 => sanitizeHeap cfg fuel σ1 (.jFields raddr tl)
          | none => none
      | .hStr s =>
        match setField σ raddr k (.hStr (DataSanitizer.sanitizeString s cfg)) with
        | some σ1 => sanitizeHeap cfg fuel σ1 (.jFields raddr tl)
        | none => none
      | v =>
        match setField σ raddr k v with
        | some σ1 => sanitizeHeap cfg fuel σ1 (.jFields raddr tl)
        | none => none

/-- Every reference in the value points below address `n`. -/
def HVal.refBelow (n : Nat) : HVal → Bool
  | .hRef a => decide (a < n)
  | _ => true

def cellBelow (n : Nat) : HCell → Bool
  | .cellObj fs => fs.all (fun kv => kv.2.refBelow n)
  | .cellArr es => es.all (fun e => e.refBelow n)

/-- The first `n` cells only reference addresses below `n` (a closed input
store). -/
def storeClosedBelow (n : Nat) (σ : Store) : Bool := (σ.take n).all (cellBelow n)

/-- Read a heap value back as a pure `Value` tree (fuelled, `none` on
dangling references or exhausted depth). -/
def readHeap (σ : Store) : Nat → HVal → Option Value
  | 0, _ => none
  | _ + 1, .hNull => some .vNull
  | _ + 1, .hUndefined => some .vUndefined
  | _ + 1, .hBool b => some (.vBool b)
  | _ + 1, .hNum m => some (.vNum m)
  | _ + 1, .hStr s => some (.vStr s)
  | _ + 1, .hFun => some .vFun
  | fuel + 1, .hRef a =>
    match σ[a]? with
    | some (.cellObj fs) =>
      (fs.mapM (fun kv => (readHeap σ fuel kv.2).map (fun w => (kv.1, w)))).map Value.vObj
    | some (.cellArr es) => (es.mapM (readHeap σ fuel)).map Value.vArr
    | none => none

/-- Concrete input store for the C9 witness: an object with a password
field and a nested object holding a token. -/
def storeC9 : Store :=
  [.cellObj [("password", .hStr "x"), ("child", .hRef 1)], .cellObj [("token", .hStr "t")]]


theorem setField_frame (σ : Store) (a : Nat) (k : String) (v : HVal) (σ' : Store)
    (h : setField σ a k v = some σ') :
    σ'.length = σ.length ∧ ∀ i, i ≠ a → σ'[i]? = σ[i]? := by
  unfold setField at h
  split at h
  case _ fs heq =>
    obtain rfl : σ.set a (HCell.cellObj (setEntry fs k v)) = σ' := by
      injection h
    exact ⟨List.length_set σ _ _, fun i hi => List.getElem?_set_ne (fun he => hi he.symm)⟩
  case _ => exact absurd h (by simp)

theorem appendElem_frame (σ : Store) (a : Nat) (v : HVal) (σ' : Store)
    (h : appendElem σ a v = some σ') :
    σ'.length = σ.length ∧ ∀ i, i ≠ a → σ'[i]? = σ[i]? := by
  unfold appendElem at h
  split at h
  case _ es heq =>
    obtain rfl : σ.set a (HCell.cellArr (es ++ [v])) = σ' := by
      injection h
    exact ⟨List.length_set σ _ _, fun i hi => List.getElem?_set_ne (fun he => hi he.symm)⟩
  case _ => exact absurd h (by simp)

def jobAbove (n : Nat) : SanJob → Bool
  | .jElems raddr _ => decide (n ≤ raddr)
  | .jFields raddr _ => decide (n ≤ raddr)
  | _ => true

/-- Frame property: a run of the heap sanitizer never changes any cell below
the frame boundary `n` (all writes target the freshly allocated result
cells at or above the input store's length). -/
theorem sanitizeHeap_frame (cfg : MergedConfig) (n : Nat) :
    ∀ (fuel : Nat) (σ : Store) (job : SanJob) (σ' : Store) (r : HVal),
      sanitizeHeap cfg fuel σ job = some (σ', r) →
      n ≤ σ.length → jobAbove n job = true →
      σ.length ≤ σ'.length ∧ ∀ i, i < n → σ'[i]? = σ[i]? := by
  intro fuel
  induction fuel with
  | zero =>
    intro σ job σ' r h _ _
    exact absurd h (by simp [sanitizeHeap])
  | succ fuel ih =>
    intro σ job σ' r h hn hab
    cases job with
    | jVal v =>
      cases v with
      | hRef a => exact ih σ (.jObj a) σ' r h hn rfl
      | hStr s =>
        simp only [sanitizeHeap, Option.some.injEq, Prod.mk.injEq] at h
        obtain ⟨rfl, -⟩ := h
        exact ⟨le_rfl, fun i _ => rfl⟩
      | hNull =>
        simp only [sanitizeHeap, Option.some.injEq, Prod.mk.injEq] at h
        obtain ⟨rfl, -⟩ := h
        exact ⟨le_rfl, fun i _ => rfl⟩
      | hUndefined =>
        simp only [sanitizeHeap, Option.some.injEq, Prod.mk.injEq] at h
        obtain ⟨rfl, -⟩ := h
        exact ⟨le_rfl, fun i _ => rfl⟩
      | hBool b =>
        simp only [sanitizeHeap, Option.some.injEq, Prod.mk.injEq] at h
        obtain ⟨rfl, -⟩ := h
        exact ⟨le_rfl, fun i _ => rfl⟩
      | hNum m =>
        simp only [sanitizeHeap, Option.some.injEq, Prod.mk.injEq] at h
        obtain ⟨rfl, -⟩ := h
        exact ⟨le_rfl, fun i _ => rfl⟩
      | hFun =>
        simp only [sanitizeHeap, Option.some.injEq, Prod.mk.injEq] at h
        obtain ⟨rfl, -⟩ := h
        exact ⟨le_rfl, fun i _ => rfl⟩
    | jObj a =>
      simp only [sanitizeHeap] at h
      split at h
      case _ es heq =>
        have hstep := ih (σ ++ [.cellArr []]) (.jElems σ.length es) σ' r h
          (by simp; omega) (by simp [jobAbove]; omega)
        have hl := hstep.1
        simp only [List.length_append, List.length_cons, List.length_nil] at hl
        refine ⟨by omega, fun i hi => ?_⟩
        rw [hstep.2 i hi, List.getElem?_append_left (by omega)]
      case _ fs heq =>
        have hstep := ih (σ ++ [.cellObj []]) (.jFields σ.length fs) σ' r h
          (by simp; omega) (by simp [jobAbove]; omega)
        have hl := hstep.1
        simp only [List.length_append, List.length_cons, List.length_nil] at hl
        refine ⟨by omega, fun i hi => ?_⟩
        rw [hstep.2 i hi, List.getElem?_append_left (by omega)]
      case _ => simp at h
    | jElems raddr es =>
      have hab' : n ≤ raddr := by simpa [jobAbove] using hab
      cases es with
      | nil =>
        simp only [sanitizeHeap, Option.some.injEq, Prod.mk.injEq] at h
        obtain ⟨rfl, -⟩ := h
        exact ⟨le_rfl, fun i _ => rfl⟩
      | cons e tl =>
        simp only [sanitizeHeap] at h
        split at h
        case _ σ1 v1 heq1 =>
          split at h
          case _ σ2 heq2 =>
            have f1 := ih σ (.jVal e) σ1 v1 heq1 hn rfl
            have f2 := appendElem_frame σ1 raddr v1 σ2 heq2
            have f3 := ih σ2 (.jElems raddr tl) σ' r h
              (by omega) (by simp [jobAbove]; omega)
            refine ⟨by omega, fun i hi => ?_⟩
            rw [f3.2 i hi, f2.2 i (by omega), f1.2 i hi]
          case _ => simp at h
        case _ => simp at h
    | jFields raddr fs =>
      have hab' : n ≤ raddr := by simpa [jobAbove] using hab
      cases fs with
      | nil =>
        simp only [sanitizeHeap, Option.some.injEq, Prod.mk.injEq] at h
        obtain ⟨rfl, -⟩ := h
        exact ⟨le_rfl, fun i _ => rfl⟩
      | cons kv tl =>
        obtain ⟨k, v⟩ := kv
        simp only [sanitizeHeap] at h
        split at h
        · split at h
          case _ σ1 heq1 =>
            have f1 := setField_frame σ raddr k _ σ1 heq1
            have f2 := ih σ1 (.jFields raddr tl) σ' r h
              (by omega) (by simp [jobAbove]; omega)
            exact ⟨by omega, fun i hi => by rw [f2.2 i hi, f1.2 i (by omega)]⟩
          case _ => simp at h
        · split at h
          case _ a =>
            split at h
            · split at h
              case _ σ1 v1 heq1 =>
                split at h
                case _ σ2 heq2 =>
                  have f1 := ih σ (.jObj a) σ1 v1 heq1 hn rfl
                  have f2 := setField_frame σ1 raddr k v1 σ2 heq2
                  have f3 := ih σ2 (.jFields raddr tl) σ' r h
                    (by omega) (by simp [jobAbove]; omega)
                  exact ⟨by omega, fun i hi => by
                    rw [f3.2 i hi, f2.2 i (by omega), f1.2 i hi]⟩
                case _ => simp at h
              case _ => simp at h
            · split at h
              case _ σ1 heq1 =>
                have f1 := setField_frame σ raddr k _ σ1 heq1
                have f2 := ih σ1 (.jFields raddr tl) σ' r h
                  (by omega) (by simp [jobAbove]; omega)
                exact ⟨by omega, fun i hi => by rw [f2.2 i hi, f1.2 i (by omega)]⟩
              case _ => simp at h
          case _ s =>
            split at h
            case _ σ1 heq1 =>
              have f1 := setField_frame σ raddr k _ σ1 heq1
              have f2 := ih σ1 (.jFields raddr tl) σ' r h
                (by omega) (by simp [jobAbove]; omega)
              exact ⟨by omega, fun i hi => by rw [f2.2 i hi, f1.2 i (by omega)]⟩
            case _ => simp at h
          case _ =>
            split at h
            case _ σ1 heq1 =>
              have f1 := setField_frame σ raddr k _ σ1 heq1
              have f2 := ih σ1 (.jFields raddr tl) σ' r h
                (by omega) (by simp [jobAbove]; omega)
              exact ⟨by omega, fun i hi => by rw [f2.2 i hi, f1.2 i (by omega)]⟩
            case _ => simp at h

theorem mapM_congr_opt {α β : Type} (f g : α → Option β) :
    ∀ l : List α, (∀ x ∈ l, f x = g x) → l.mapM f = l.mapM g := by
  intro l
  induction l with
  | nil => intro _; rfl
  | cons x tl ih =>
    intro h
    simp only [List.mapM_cons]
    rw [h x (List.mem_cons_self _ _), ih (fun y hy => h y (List.mem_cons_of_mem _ hy))]

theorem storeClosedBelow_spec (n : Nat) (σ : Store) (h : storeClosedBelow n σ = true) :
    ∀ a, a < n → ∀ cell, σ[a]? = some cell → cellBelow n cell = true := by
  intro a ha cell hcell
  have ht : (σ.take n)[a]? = some cell := by
    rw [List.getElem?_take_of_lt ha, hcell]
  obtain ⟨hlt, hget⟩ := List.getElem?_eq_some_iff.mp ht
  have hmem : cell ∈ σ.take n := hget ▸ List.getElem_mem hlt
  exact (List.all_eq_true.mp h) cell hmem

/-- Reading a closed value is insensitive to changes above the frame
boundary. -/
theorem readHeap_congr (σ σ' : Store) (n : Nat)
    (hagree : ∀ i, i < n → σ'[i]? = σ[i]?)
    (hclosed : storeClosedBelow n σ = true) :
    ∀ (fuel : Nat) (v : HVal), HVal.refBelow n v = true →
      readHeap σ' fuel v = readHeap σ fuel v := by
  intro fuel
  induction fuel with
  | zero => intro v _; rfl
  | succ fuel ih =>
    intro v hv
    cases v with
    | hNull => rfl
    | hUndefined => rfl
    | hBool b => rfl
    | hNum m => rfl
    | hStr s => rfl
    | hFun => rfl
    | hRef a =>
      have ha : a < n := by simpa [HVal.refBelow] using hv
      simp only [readHeap, hagree a ha]
      cases hcell : σ[a]? with
      | none => rfl
      | some cell =>
        have hbelow := storeClosedBelow_spec n σ hclosed a ha cell hcell
        cases cell with
        | cellObj fs =>
          have hall := List.all_eq_true.mp hbelow
          dsimp only
          exact congrArg (Option.map Value.vObj) (mapM_congr_opt _ _ fs (fun kv hkv => by
            simp only [ih kv.2 (hall kv hkv)]))
        | cellArr es =>
          have hall := List.all_eq_true.mp hbelow
          dsimp only
          exact congrArg (Option.map Value.vArr)
            (mapM_congr_opt _ _ es (fun e he => ih e (hall e he)))

/-- C9: the sanitizer returns a redacted copy and never mutates its input —
a completed run leaves every pre-existing store cell intact, so the original
value (including every nested object, array and string) reads back exactly
as before the call, for every context. -/
theorem C9_sanitize_no_mutation :
    ∀ (c : SanitizationContext) (fuel : Nat) (σ σ' : Store) (v r : HVal),
      sanitizeHeap (mergeConfig c) fuel σ (.jVal v) = some (σ', r) →
      storeClosedBelow σ.length σ = true →
      HVal.refBelow σ.length v = true →
      (∀ i, i < σ.length → σ'[i]? = σ[i]?) ∧
      ∀ f, readHeap σ' f v = readHeap σ f v := by
  intro c fuel σ σ' v r h hclosed hv
  have hf := sanitizeHeap_frame (mergeConfig c) σ.length fuel σ (.jVal v) σ' r h le_rfl rfl
  exact ⟨hf.2, fun f => readHeap_congr σ σ' σ.length hf.2 hclosed f v hv⟩

/-- The output store of the C9 witness run: the input cells 0 and 1 are
untouched, the redacted copies live in the fresh cells 2 and 3. -/
def storeC9out : Store :=
  [.cellObj [("password", .hStr "x"), ("child", .hRef 1)], .cellObj [("token", .hStr "t")],
   .cellObj [("password", .hStr "[REDACTED]"), ("child", .hRef 3)],
   .cellObj [("token", .hStr "[REDACTED]")]]

/-- Witness for C9 at the concrete store: both input cells are preserved
and the input value reads back unchanged. -/
theorem C9_witness :
    storeC9out[0]? = storeC9[0]? ∧ storeC9out[1]? = storeC9[1]? ∧
    readHeap storeC9out 5 (.hRef 0) = readHeap storeC9 5 (.hRef 0) := by
  have h := C9_sanitize_no_mutation {} 10 storeC9 storeC9out (.hRef 0) (.hRef 2)
    (by decide) (by decide) (by decide)
  exact ⟨h.1 0 (by decide), h.1 1 (by decide), h.2 5⟩
